import Mathlib

/-!
Verification development for the IAMcoder mission runner.

The Python sources under `src/` are shallowly embedded here:
pure functions become Lean functions, exceptions become `Except`,
Python dictionaries become insertion-ordered association lists and
the filesystem becomes an association list from (resolved) path
strings to file contents.  Unless a doc comment says otherwise,
every definition is a direct transliteration of the identically
named Python function.

Modelling conventions, stated once:
- `str.strip`, `str.lower`, `str.upper` are modelled by their ASCII
  behaviour (`pyStrip`, `pyLower`, `pyUpper`); all
  keywords and separators the code compares against are ASCII.
- `datetime`-derived strings (timestamps, durations) are passed in as
  explicit parameters, since they are ambient inputs of the program.
- Python string `repr` used inside `str()` of containers is modelled
  without escape sequences (quotes around the raw characters).
-/

namespace IAMcoder

/-! ## Python string primitives -/

/-- Python `str.replace(pat, rep)` on character lists: leftmost,
non-overlapping replacement of every occurrence.  The `pat = []`
case (which Python treats specially) never arises in the embedded
code, where every pattern is non-empty; we return the string
unchanged there.  The recursion is driven by a fuel counter so that
the definition is structurally recursive (kernel-evaluable); every
step shortens the string by at least one character, so `s.length`
fuel always suffices and the `fuel = 0` base case (where the string
is already empty) agrees with the recursive equations. -/
def replaceFuel (pat rep : List Char) : Nat → List Char → List Char
  | 0, s => s
  | fuel + 1, s =>
    match s with
    | [] => []
    | c :: rest =>
      if pat ≠ [] ∧ pat.isPrefixOf (c :: rest) then
        rep ++ replaceFuel pat rep fuel ((c :: rest).drop pat.length)
      else
        c :: replaceFuel pat rep fuel rest

/-- Python `str.replace` on character lists (see `replaceFuel`). -/
def replaceChars (pat rep s : List Char) : List Char :=
  replaceFuel pat rep s.length s

/-- Fuel irrelevance for `replaceFuel`: any fuel of at least the
string length computes the same result, so `replaceChars` satisfies
the intended recursion equations. -/
theorem replaceFuel_congr (pat rep : List Char) :
    ∀ fuel₁ fuel₂ s, s.length ≤ fuel₁ → s.length ≤ fuel₂ →
      replaceFuel pat rep fuel₁ s = replaceFuel pat rep fuel₂ s := by
  intro fuel₁
  induction fuel₁ with
  | zero =>
    intro fuel₂ s h1 _
    have : s = [] := List.length_eq_zero.mp (Nat.le_zero.mp h1)
    subst this
    cases fuel₂ <;> rfl
  | succ f ih =>
    intro fuel₂ s h1 h2
    cases fuel₂ with
    | zero =>
      have : s = [] := List.length_eq_zero.mp (Nat.le_zero.mp h2)
      subst this
      rfl
    | succ g =>
      cases s with
      | nil => rfl
      | cons c rest =>
        simp only [replaceFuel]
        split
        · rename_i hpre
          have hp : 1 ≤ pat.length := by
            cases pat with
            | nil => exact absurd rfl hpre.1
            | cons a t => simp
          have hlen : ((c :: rest).drop pat.length).length ≤ f := by
            simp only [List.length_drop, List.length_cons]
            simp only [List.length_cons] at h1
            omega
          have hlen2 : ((c :: rest).drop pat.length).length ≤ g := by
            simp only [List.length_drop, List.length_cons]
            simp only [List.length_cons] at h2
            omega
          rw [ih _ _ hlen hlen2]
        · simp only [List.length_cons] at h1 h2
          rw [ih g rest (by omega) (by omega)]

theorem replaceChars_nil (pat rep : List Char) : replaceChars pat rep [] = [] := rfl

theorem replaceChars_cons (pat rep : List Char) (c : Char) (rest : List Char) :
    replaceChars pat rep (c :: rest) =
      if pat ≠ [] ∧ pat.isPrefixOf (c :: rest) then
        rep ++ replaceChars pat rep ((c :: rest).drop pat.length)
      else
        c :: replaceChars pat rep rest := by
  show replaceFuel pat rep (rest.length + 1) (c :: rest) = _
  simp only [replaceFuel]
  split
  · rename_i hpre
    have hp : 1 ≤ pat.length := by
      cases pat with
      | nil => exact absurd rfl hpre.1
      | cons a t => simp
    rw [replaceChars]
    rw [replaceFuel_congr pat rep rest.length ((c :: rest).drop pat.length).length
      ((c :: rest).drop pat.length) (by simp; omega) (by omega)]
  · rw [replaceChars]

/-- Python `s.replace(pat, rep)` lifted to `String`. -/
def pyReplace (s pat rep : String) : String :=
  ⟨replaceChars pat.data rep.data s.data⟩

/-- Python `hay.find(needle, start)` restricted to searching from the
head of the given suffix; returns the offset of the leftmost match. -/
def findFrom (needle : List Char) : List Char → Nat → Option Nat
  | [], i => if needle.isPrefixOf ([] : List Char) then some i else none
  | c :: t, i =>
    if needle.isPrefixOf (c :: t) then some i else findFrom needle t (i + 1)

/-- Python `hay.find(needle)`. -/
def pyFind (hay needle : String) : Option Nat :=
  findFrom needle.data hay.data 0

/-- Python `hay.find(needle, start)`. -/
def pyFindFrom (hay needle : String) (start : Nat) : Option Nat :=
  (findFrom needle.data (hay.data.drop start) 0).map (· + start)

/-- Python `s.replace(pat, rep, 1)`: replace only the first occurrence. -/
def pyReplaceFirst (s pat rep : String) : String :=
  match pyFind s pat with
  | none => s
  | some i => ⟨s.data.take i ++ rep.data ++ s.data.drop (i + pat.data.length)⟩

/-- Python `needle in hay` substring test. -/
def pyContains (hay needle : String) : Bool :=
  (pyFind hay needle).isSome

/-- Python `str.lower()` (ASCII behaviour; every comparison in the
embedded code is against ASCII keywords).  Implemented over the
character list so that it reduces in the kernel. -/
def pyLower (s : String) : String :=
  ⟨s.data.map Char.toLower⟩

/-- Python `str.upper()` (ASCII behaviour), kernel-reducible. -/
def pyUpper (s : String) : String :=
  ⟨s.data.map Char.toUpper⟩

/-- Python `str.strip()` (ASCII whitespace), kernel-reducible. -/
def pyStrip (s : String) : String :=
  ⟨((s.data.dropWhile Char.isWhitespace).reverse.dropWhile Char.isWhitespace).reverse⟩

/-! ## Values loaded from YAML (Python object model)

`yaml.safe_load` produces `None`, booleans, numbers, strings, lists
and string-keyed dictionaries; `YVal` models exactly these (floats
do not occur in any embedded code path and are omitted).
Dictionaries keep Python's insertion order as association lists with
unique keys. -/

inductive YVal where
  | null
  | bool (b : Bool)
  | int (n : Int)
  | str (s : String)
  | list (items : List YVal)
  | map (entries : List (String × YVal))
deriving Repr, Inhabited

/-- Python truthiness of a value. -/
def truthy : YVal → Bool
  | .null => false
  | .bool b => b
  | .int n => n != 0
  | .str s => s ≠ ""
  | .list items => !items.isEmpty
  | .map entries => !entries.isEmpty

/-- Python `type(v).__name__`. -/
def typeName : YVal → String
  | .null => "NoneType"
  | .bool _ => "bool"
  | .int _ => "int"
  | .str _ => "str"
  | .list _ => "list"
  | .map _ => "dict"

/-- Python `d.get(k)` on a dictionary: `None` when the key is absent. -/
def yGet (entries : List (String × YVal)) (k : String) : YVal :=
  match entries.find? (fun kv => kv.1 == k) with
  | some kv => kv.2
  | none => .null

/-- Python `k in d` key-membership test. -/
def yHasKey (entries : List (String × YVal)) (k : String) : Bool :=
  entries.any (fun kv => kv.1 == k)

/-- Join a list of rendered fragments with `", "`. -/
def joinComma : List String → String
  | [] => ""
  | [s] => s
  | s :: rest => s ++ ", " ++ joinComma rest

/-- Structural size of a value, used only as recursion fuel for
`pyRepr` on containers. -/
def ysize : YVal → Nat
  | .null => 1
  | .bool _ => 1
  | .int _ => 1
  | .str _ => 1
  | .list items => 1 + (items.attach.map fun x => ysize x.1).sum
  | .map entries => 1 + (entries.attach.map fun x => ysize x.1.2).sum
decreasing_by
  all_goals
    have h1 := List.sizeOf_lt_of_mem x.2
    first
    | (simp only [YVal.list.sizeOf_spec]; omega)
    | (have h2 : sizeOf x.1.2 < sizeOf x.1 := by
        obtain ⟨a, b⟩ := x.1
        simp
       simp only [YVal.map.sizeOf_spec]
       omega)

/-- Python `repr(v)`, fuel-structured for kernel evaluation (the fuel
strictly dominates the nesting depth: every child of a container has
a strictly smaller `ysize`).  String escaping inside `repr` is
simplified to plain quotes; no embedded code path depends on it. -/
def pyReprFuel : Nat → YVal → String
  | 0, _ => ""
  | fuel + 1, v =>
    match v with
    | .null => "None"
    | .bool true => "True"
    | .bool false => "False"
    | .int n => toString n
    | .str s => "\x27" ++ s ++ "\x27"
    | .list items => "[" ++ joinComma (items.map (pyReprFuel fuel)) ++ "]"
    | .map entries =>
      "\x7b" ++
        joinComma (entries.map fun kv => "\x27" ++ kv.1 ++ "\x27: " ++ pyReprFuel fuel kv.2) ++
      "\x7d"

/-- Python `repr(v)`; scalar cases are given directly so that they
reduce in the kernel. -/
def pyRepr : YVal → String
  | .null => "None"
  | .bool true => "True"
  | .bool false => "False"
  | .int n => toString n
  | .str s => "\x27" ++ s ++ "\x27"
  | .list items => pyReprFuel (ysize (.list items)) (.list items)
  | .map entries => pyReprFuel (ysize (.map entries)) (.map entries)

/-- Python `str(v)`: the string itself for strings, `repr` otherwise
(containers render their elements with `repr`). -/
def pyStr : YVal → String
  | .str s => s
  | v => pyRepr v

/-! ## fnmatch glob matching (Python `fnmatch.fnmatch`)

`fnmatch.translate` compiles a pattern to a regex: `*` matches any
character sequence (including `/`), `?` any single character and
`[...]`/`[!...]` a (negated) character class with ranges; a `[` with
no closing `]` is a literal.  We implement the same semantics as a
direct matcher.  One divergence, documented here: an inverted range
such as `[z-a]` makes CPython's `re` raise; the model treats such a
range as matching nothing. -/

/-- One member of a glob character class: a literal character or an
inclusive range. -/
inductive ClassItem where
  | single (c : Char)
  | range (lo hi : Char)
deriving Repr

/-- Scan the body of a character class up to the closing `]`,
mirroring the scan in `fnmatch.translate`. -/
def scanBracketAux : List Char → List Char → Option (List Char × List Char)
  | _, [] => none
  | acc, ']' :: rest => some (acc.reverse, rest)
  | acc, c :: rest => scanBracketAux (c :: acc) rest

/-- Parse a character class after the opening `[`.  Returns
`(negated, body, rest-of-pattern)`, or `none` when there is no
closing `]` (the `[` is then a literal).  A `]` directly after `[`
or `[!` is part of the class body. -/
def scanBracket (cs : List Char) : Option (Bool × List Char × List Char) :=
  match cs with
  | '!' :: ']' :: rest =>
    (scanBracketAux [']'] rest).map fun p => (true, p.1, p.2)
  | '!' :: rest =>
    (scanBracketAux [] rest).map fun p => (true, p.1, p.2)
  | ']' :: rest =>
    (scanBracketAux [']'] rest).map fun p => (false, p.1, p.2)
  | _ =>
    (scanBracketAux [] cs).map fun p => (false, p.1, p.2)

/-- Split a class body into literal members and ranges; `-` at the
start or end of the body is literal, as in regex classes. -/
def parseClassBody : List Char → List ClassItem
  | [] => []
  | a :: '-' :: b :: rest => .range a b :: parseClassBody rest
  | a :: rest => .single a :: parseClassBody rest

/-- Membership of a character in a (possibly negated) class. -/
def matchBracket (neg : Bool) (items : List ClassItem) (c : Char) : Bool :=
  let inSet := items.any fun it =>
    match it with
    | .single a => a == c
    | .range a b => decide (a.toNat ≤ c.toNat) && decide (c.toNat ≤ b.toNat)
  if neg then !inSet else inSet

theorem scanBracketAux_length {acc cs : List Char} {p : List Char × List Char}
    (h : scanBracketAux acc cs = some p) : p.2.length < cs.length := by
  induction cs generalizing acc with
  | nil => simp [scanBracketAux] at h
  | cons c rest ih =>
    unfold scanBracketAux at h
    split at h
    · cases h
    · cases h
      simp_all
    · rename_i hne heq
      injection heq with hc hrest
      subst hrest
      have := ih h
      simp only [List.length_cons]
      omega

theorem scanBracket_length {cs : List Char} {q : Bool × List Char × List Char}
    (h : scanBracket cs = some q) : q.2.2.length < cs.length := by
  unfold scanBracket at h
  split at h <;>
    simp only [Option.map_eq_some'] at h <;>
    obtain ⟨p, hp, hq⟩ := h <;>
    subst hq <;>
    have := scanBracketAux_length hp <;>
    simp_all <;> omega

/-- The glob matcher over character lists (anchored at both ends,
like the `(?s:...)\Z` regex produced by `fnmatch.translate`),
written with a fuel counter so it is structurally recursive.  Every
recursive call strictly decreases `p.length + s.length` (for the
character-class case this is `scanBracket_length`), so fuel
`p.length + s.length + 1` always suffices and the `fuel = 0` branch
is unreachable from `globMatchChars`. -/
def globMatchFuel : Nat → List Char → List Char → Bool
  | 0, _, _ => false
  | fuel + 1, p, s =>
    match p with
    | [] => s.isEmpty
    | '*' :: p =>
      globMatchFuel fuel p s ||
        (match s with
         | [] => false
         | _ :: t => globMatchFuel fuel ('*' :: p) t)
    | '?' :: p =>
      (match s with
       | [] => false
       | _ :: t => globMatchFuel fuel p t)
    | '[' :: p =>
      (match scanBracket p with
       | some (neg, body, rest) =>
         match s with
         | [] => false
         | c :: t => matchBracket neg (parseClassBody body) c && globMatchFuel fuel rest t
       | none =>
         match s with
         | [] => false
         | c :: t => (c == '[') && globMatchFuel fuel p t)
    | c :: p =>
      (match s with
       | [] => false
       | d :: t => (c == d) && globMatchFuel fuel p t)

/-- The glob matcher (see `globMatchFuel` for the fuel argument). -/
def globMatchChars (p s : List Char) : Bool :=
  globMatchFuel (p.length + s.length + 1) p s

/-- Python `fnmatch.fnmatch(name, pat)` on POSIX (where
`os.path.normcase` is the identity). -/
def fnmatch (name pat : String) : Bool :=
  globMatchChars pat.data name.data

/-! ## `src/core/guardrail.py` -/

/-- Path-separator normalization `str(path).replace(chr(92), chr(47))`
used by `Guardrail.is_sanctuary_path`. -/
def normSlashes (s : String) : String :=
  ⟨s.data.map fun c => if c = '\\' then '/' else c⟩

/-- Spelling a path with backslash separators: every `/` replaced by
a backslash (used only to state the two-spellings property). -/
def backslashify (s : String) : String :=
  ⟨s.data.map fun c => if c = '/' then '\\' else c⟩

/-- GuardrailError raised by `Guardrail.check_path`.  The Python
exception carries a formatted message naming the operation, the path
and the matching pattern; we keep the three components structurally. -/
structure GuardrailViolation where
  operation : String
  path : String
  pattern : String
deriving Repr, DecidableEq

/-- Default sanctuary pattern list from `core/settings.py`. -/
def defaultSanctuaryPaths : List String :=
  ["data/hive_boxes/**", ".env", "private/**", ".git/**"]

/-- `Guardrail.is_sanctuary_path`: normalize separators, test the path
against every configured pattern, true on first `fnmatch` hit. -/
def is_sanctuary_path (sanctuary_paths : List String) (file_path : String) : Bool :=
  let file_path_str := normSlashes file_path
  sanctuary_paths.any fun pattern => fnmatch file_path_str (normSlashes pattern)

/-- `Guardrail._find_matching_pattern`: the first configured pattern
matching the normalized path, `"unknown"` when none does. -/
def find_matching_pattern (sanctuary_paths : List String) (file_path : String) : String :=
  let file_path_str := normSlashes file_path
  match sanctuary_paths.find? (fun pattern => fnmatch file_path_str (normSlashes pattern)) with
  | some pattern => pattern
  | none => "unknown"

/-- `Guardrail.check_path`: raises `GuardrailError` when the path is
a sanctuary path, otherwise returns normally. -/
def check_path (sanctuary_paths : List String) (file_path : String)
    (operation : String := "modify") : Except GuardrailViolation Unit :=
  if is_sanctuary_path sanctuary_paths file_path then
    .error ⟨operation, file_path, find_matching_pattern sanctuary_paths file_path⟩
  else
    .ok ()

/-- `guardrail.enforce_task_restrictions(task_text, mode)`.  A falsy
`mode` (None, the empty string, ...) falls back to the mode read
from `config/settings.yaml`, passed here as the explicit ambient
input `config_mode`; `str(active_mode).lower()` is compared against
`"read_only"` and the fixed keyword tuple is scanned in the
lowercased task text. -/
def enforce_task_restrictions (task_text : String) (mode : YVal)
    (config_mode : String) : Except String Unit :=
  let active_mode : String := if truthy mode then pyStr mode else config_mode
  if pyLower active_mode = "read_only" then
    if (["write", "delete", "move"]).any (fun keyword => pyContains (pyLower task_text) keyword) then
      .error "Forbidden in read_only mode"
    else
      .ok ()
  else
    .ok ()

theorem normSlashes_backslashify (p : String) :
    normSlashes (backslashify p) = normSlashes p := by
  unfold normSlashes backslashify
  congr 1
  simp only [List.map_map]
  induction p.data with
  | nil => rfl
  | cons c t ih =>
    simp only [List.map_cons, Function.comp_apply, ih, List.cons.injEq, and_true]
    by_cases hc : c = '/'
    · simp [hc]
    · by_cases hc2 : c = '\\' <;> simp [hc, hc2]

/-- C3: `Guardrail.check` raises a GuardrailViolation exactly when the
path, with backslashes normalized to forward slashes, fnmatch-matches
at least one configured pattern (patterns are normalized the same
way), and the backslash-separated spelling of a path is protected
exactly when the forward-slash spelling is; non-matching paths pass
silently. -/
theorem C3_check_path_iff_match (patterns : List String) (path operation : String) :
    ((∃ e, check_path patterns path operation = .error e) ↔
      ∃ pat ∈ patterns, fnmatch (normSlashes path) (normSlashes pat) = true) ∧
    is_sanctuary_path patterns (backslashify path) = is_sanctuary_path patterns path ∧
    (is_sanctuary_path patterns path = false →
      check_path patterns path operation = .ok ()) := by
  refine ⟨?_, ?_, ?_⟩
  · unfold check_path
    by_cases h : is_sanctuary_path patterns path
    · simp only [h, if_true]
      constructor
      · intro _
        unfold is_sanctuary_path at h
        simpa using h
      · intro _
        exact ⟨_, rfl⟩
    · simp only [h]
      constructor
      · rintro ⟨e, he⟩
        simp at he
      · intro hex
        exfalso
        apply h
        unfold is_sanctuary_path
        simpa using hex
  · unfold is_sanctuary_path
    rw [normSlashes_backslashify]
  · intro h
    unfold check_path
    rw [h]
    simp

/-! ## `src/domain/entities/task.py` and `mission.py`

The dataclass fields are untyped in Python; `name` may end up holding
any loaded value (e.g. an integer from YAML), so it is a `YVal`,
while `goal`, `task_type`, `result` and `error` are strings on every
code path that writes them. -/

inductive TaskStatus where
  | pending
  | in_progress
  | completed
  | failed
  | cancelled
deriving Repr, DecidableEq

inductive MissionStatus where
  | pending
  | running
  | completed
  | failed
  | cancelled
deriving Repr, DecidableEq

structure Task where
  name : YVal
  goal : String
  task_type : String := "generic"
  parameters : List (String × YVal) := []
  status : TaskStatus := .pending
  result : Option String := none
  error : Option String := none
deriving Repr

structure Mission where
  name : YVal
  description : YVal
  tasks : List Task := []
  status : MissionStatus := .pending
  metadata : List (String × YVal) := []
deriving Repr

/-- `Task.__post_init__` validation: constructing a task with a falsy
name or an empty goal raises `ValueError`. -/
def Task.mk? (name : YVal) (goal : String) (task_type : String)
    (parameters : List (String × YVal)) : Except String Task :=
  if !truthy name then
    .error "Task name cannot be empty"
  else if goal = "" then
    .error "Task goal cannot be empty"
  else
    .ok { name := name, goal := goal, task_type := task_type, parameters := parameters }

/-- `Mission.__post_init__` validation: a falsy name raises `ValueError`. -/
def Mission.mk? (name : YVal) (description : YVal)
    (metadata : List (String × YVal)) : Except String Mission :=
  if !truthy name then
    .error "Mission name cannot be empty"
  else
    .ok { name := name, description := description, metadata := metadata }

/-- `Mission.get_completed_tasks`. -/
def Mission.get_completed_tasks (m : Mission) : List Task :=
  m.tasks.filter fun t => t.status == .completed

/-- `Mission.get_progress`, with Python's float arithmetic idealized
as exact rational arithmetic (the computation is one division and
one multiplication). -/
def Mission.get_progress (m : Mission) : ℚ :=
  if m.tasks.isEmpty then
    (100 : ℚ)
  else
    ((m.get_completed_tasks.length : ℚ) / (m.tasks.length : ℚ)) * 100

/-! ## `src/core/context_bridge.py` (the parts the orchestrator uses) -/

/-- `mission.metadata.get(key, default={}) or {}` as used by
`ContextBridge.attach_mission` for the `meta` and `context` sections. -/
def bridgeSection (mission : Mission) (key : String) : YVal :=
  let v := yGet mission.metadata key
  if truthy v then v else .map []

/-- `ContextBridge.get_mode` after `attach_mission(mission)`: the
`mode` entry of the mission context section, falling back to the
`mode` entry of the meta section when falsy. -/
def bridge_get_mode (mission : Mission) : YVal :=
  let mode :=
    match bridgeSection mission "context" with
    | .map entries => yGet entries "mode"
    | _ => .null
  if truthy mode then
    mode
  else
    match bridgeSection mission "meta" with
    | .map entries => yGet entries "mode"
    | _ => .null

/-! ## `src/domain/services/executor_service.py`

The concrete task handler (`TaskLogicHandler.execute`) performs I/O
and dispatches to many sub-handlers; the orchestrator treats it as a
call that either returns a status string or raises, so it enters the
model as an oracle `handler : Task → Except String String` (`error`
is a raised exception rendered by `str`).  Lifecycle callbacks
(`on_task_started`, ...) default to `None` in the source and are
omitted; diagnostics publishing and the metadata snapshot only
append observability data and are not modelled. -/

/-- `ExecutorService._execute_task_logic`: runs the handler and turns
any exception into an `[ERROR]`-prefixed *result string* — it never
re-raises. -/
def execute_task_logic (handler : Task → Except String String) (task : Task) : String :=
  match handler task with
  | .ok r => r
  | .error exc => "[ERROR] Erreur dans la logique de tâche : " ++ exc

/-- Outcome of `ExecutorService._execute_task`: the updated task, the
boolean the method returns, and whether the handler was invoked. -/
structure TaskRunResult where
  task : Task
  ok : Bool
  handlerInvoked : Bool
deriving Repr

/-- `ExecutorService._execute_task`: checks the mode/goal keyword
restriction first (a violation fails the task without running the
handler); otherwise runs the task logic, which cannot raise (see
`execute_task_logic`), and marks the task COMPLETED.  The `except`
branch of the Python method can only fire for exceptions raised by
lifecycle callbacks or diagnostics bookkeeping, none of which exist
in the model. -/
def execute_task (config_mode : String) (handler : Task → Except String String)
    (mission : Mission) (task : Task) : TaskRunResult :=
  let mode := bridge_get_mode mission
  match enforce_task_restrictions task.goal mode config_mode with
  | .error exc =>
    ⟨{ task with status := .failed, error := some exc }, false, false⟩
  | .ok _ =>
    let result := execute_task_logic handler task
    ⟨{ task with status := .completed, result := some result }, true, true⟩

/-- The task loop of `ExecutorService.execute_mission`: returns the
final task list, the mission status, the boolean result, and the
names of the tasks whose handler ran (in order). -/
def execute_tasks (config_mode : String) (handler : Task → Except String String)
    (mission : Mission) (confirmation_needed : Bool) (confirmer : Task → Bool) :
    List Task → List Task × MissionStatus × Bool × List YVal
  | [] => ([], .completed, true, [])
  | task :: rest =>
    if confirmation_needed && !(confirmer task) then
      ({ task with status := .cancelled } :: rest, .cancelled, false, [])
    else
      let r := execute_task config_mode handler mission task
      if r.ok then
        let (ts, st, ok, inv) := execute_tasks config_mode handler mission
          confirmation_needed confirmer rest
        (r.task :: ts, st, ok, (if r.handlerInvoked then [task.name] else []) ++ inv)
      else
        (r.task :: rest, .failed, false,
          if r.handlerInvoked then [task.name] else [])

/-- Result of `ExecutorService.execute_mission`. -/
structure MissionRun where
  mission : Mission
  ok : Bool
  invoked : List YVal
deriving Repr

/-- `ExecutorService.execute_mission`: resets/attaches the bridge
(observability only), computes `confirmation_needed` from the
argument and the persisted auto-run flag, then drives the task loop;
a declined confirmation cancels the current task and the mission, a
failed task fails the mission, and a fully successful loop completes
it. -/
def execute_mission (config_mode : String) (auto_run : Bool)
    (handler : Task → Except String String) (require_confirmation : Bool)
    (confirmer : Task → Bool) (mission : Mission) : MissionRun :=
  let confirmation_needed := require_confirmation && !auto_run
  let (ts, st, ok, inv) := execute_tasks config_mode handler mission
    confirmation_needed confirmer mission.tasks
  ⟨{ mission with tasks := ts, status := st }, ok, inv⟩

/-- The shape of a task that ran successfully through
`_execute_task`: status COMPLETED and the handler outcome stored in
`result`. -/
def completeTask (handler : Task → Except String String) (task : Task) : Task :=
  { task with status := .completed, result := some (execute_task_logic handler task) }

theorem execute_tasks_append_ok
    (config_mode : String) (handler : Task → Except String String)
    (mission : Mission) (confirmation_needed : Bool) (confirmer : Task → Bool)
    (pre rest : List Task)
    (hconf : ∀ t ∈ pre, (confirmation_needed && !(confirmer t)) = false)
    (henf : ∀ t ∈ pre,
      enforce_task_restrictions t.goal (bridge_get_mode mission) config_mode = .ok ()) :
    execute_tasks config_mode handler mission confirmation_needed confirmer (pre ++ rest) =
      ((pre.map (completeTask handler)) ++
        (execute_tasks config_mode handler mission confirmation_needed confirmer rest).1,
       (execute_tasks config_mode handler mission confirmation_needed confirmer rest).2.1,
       (execute_tasks config_mode handler mission confirmation_needed confirmer rest).2.2.1,
       pre.map (·.name) ++
        (execute_tasks config_mode handler mission confirmation_needed confirmer rest).2.2.2) := by
  induction pre with
  | nil => simp
  | cons t pre ih =>
    have hct : (confirmation_needed && !(confirmer t)) = false := hconf t (by simp)
    have het : enforce_task_restrictions t.goal (bridge_get_mode mission) config_mode = .ok () :=
      henf t (by simp)
    have ihpre := ih (fun u hu => hconf u (by simp [hu])) (fun u hu => henf u (by simp [hu]))
    simp only [List.cons_append, execute_tasks, hct, Bool.false_eq_true, if_false,
      execute_task, het]
    simp [ihpre, completeTask]

/-- Inputs of the C1 counterexample run: a two-task mission and a
handler that raises on every task. -/
def c1Mission : Mission :=
  { name := .str "m", description := .str "d",
    tasks := [{ name := .str "t1", goal := "g1" }, { name := .str "t2", goal := "g2" }] }

/-- The C1 counterexample run (write-enabled mode, no confirmation,
handler raising `boom` on every task). -/
def c1Run : MissionRun :=
  execute_mission "write_enabled" false (fun _ => .error "boom") false (fun _ => true)
    c1Mission

/-- C1 counterexample: the claim says a task whose handler raises is
marked FAILED with the exception as its error, the mission is FAILED
and later tasks stay PENDING.  Instead `_execute_task_logic` catches
the exception and returns an `[ERROR]` string: both tasks end
COMPLETED with that string as their *result* and a clear error
field, the handler of the second task still runs, and the mission
ends COMPLETED. -/
theorem C1_counterexample :
    c1Run.mission.status = .completed ∧
    c1Run.ok = true ∧
    c1Run.mission.tasks.map Task.status = [.completed, .completed] ∧
    c1Run.mission.tasks.map Task.result =
      [some "[ERROR] Erreur dans la logique de tâche : boom",
       some "[ERROR] Erreur dans la logique de tâche : boom"] ∧
    c1Run.mission.tasks.map Task.error = [none, none] ∧
    c1Run.invoked.map pyStr = ["t1", "t2"] :=
  ⟨rfl, rfl, rfl, rfl, rfl, rfl⟩

/-- C1 (amended): a handler exception is caught inside
`_execute_task_logic` and recorded as an `[ERROR]`-prefixed string in
the task's *result*; the task is marked COMPLETED (its error field
untouched), subsequent tasks are still invoked, and — when every task
passes the mode restriction — the mission ends COMPLETED. -/
theorem C1_handler_exception_becomes_error_result
    (config_mode : String) (handler : Task → Except String String)
    (confirmer : Task → Bool) (mission : Mission)
    (henf : ∀ t ∈ mission.tasks,
      enforce_task_restrictions t.goal (bridge_get_mode mission) config_mode = .ok ()) :
    (execute_mission config_mode false handler false confirmer mission).ok = true ∧
    (execute_mission config_mode false handler false confirmer mission).mission.status
      = .completed ∧
    (execute_mission config_mode false handler false confirmer mission).mission.tasks
      = mission.tasks.map (completeTask handler) ∧
    (execute_mission config_mode false handler false confirmer mission).invoked
      = mission.tasks.map (·.name) ∧
    (∀ t ∈ mission.tasks, ∀ msg, handler t = .error msg →
      (completeTask handler t).status = .completed ∧
      (completeTask handler t).error = t.error ∧
      (completeTask handler t).result
        = some ("[ERROR] Erreur dans la logique de tâche : " ++ msg)) := by
  have key := execute_tasks_append_ok config_mode handler mission false confirmer
    mission.tasks [] (fun t _ => by simp) henf
  simp only [List.append_nil] at key
  unfold execute_mission
  simp only [Bool.false_and, key, execute_tasks, List.append_nil]
  refine ⟨by trivial, by trivial, by trivial, by trivial, ?_⟩
  intro t _ msg hmsg
  refine ⟨rfl, rfl, ?_⟩
  simp [completeTask, execute_task_logic, hmsg]

/-- The mission used by the C1 amended witness. -/
def c1WitMission : Mission :=
  { name := .str "m", description := .str "d",
    tasks := [{ name := .str "t1", goal := "g1" }] }

/-- C1 witness for the amended theorem: a one-task mission in
write-enabled mode with a raising handler runs to completion. -/
theorem C1_amended_witness :
    (∀ t ∈ c1WitMission.tasks,
      enforce_task_restrictions t.goal (bridge_get_mode c1WitMission) "write_enabled"
        = .ok ()) ∧
    (execute_mission "write_enabled" false (fun _ => .error "kaput") false (fun _ => true)
      c1WitMission).mission.status = .completed := by
  have h : ∀ t ∈ c1WitMission.tasks,
      enforce_task_restrictions t.goal (bridge_get_mode c1WitMission) "write_enabled"
        = .ok () := by
    intro t ht
    rcases List.mem_singleton.mp ht with rfl
    rfl
  exact ⟨h, (C1_handler_exception_becomes_error_result "write_enabled"
    (fun _ => .error "kaput") (fun _ => true) c1WitMission h).2.1⟩

/-- C4: `enforce_task_restrictions` fails exactly when the (truthy)
mode string lowercases to `read_only` and the lowercased text
contains one of the keywords `write`, `delete`, `move`; and the
orchestrator applies it to the task\x27s goal before the handler runs —
a violating task is marked FAILED with the violation recorded as its
error, the mission is marked FAILED, and neither that task\x27s handler
nor any later task runs. -/
theorem C4_mode_restriction_blocks :
    (∀ (text m config_mode : String), m ≠ "" →
      ((∃ e, enforce_task_restrictions text (.str m) config_mode = .error e) ↔
        (pyLower m = "read_only" ∧
          ∃ kw ∈ (["write", "delete", "move"] : List String),
            pyContains (pyLower text) kw = true))) ∧
    (∀ (config_mode : String) (handler : Task → Except String String)
        (confirmer : Task → Bool) (mission : Mission)
        (pre : List Task) (task : Task) (post : List Task) (e : String),
      mission.tasks = pre ++ task :: post →
      (∀ t ∈ pre,
        enforce_task_restrictions t.goal (bridge_get_mode mission) config_mode = .ok ()) →
      enforce_task_restrictions task.goal (bridge_get_mode mission) config_mode = .error e →
      (execute_mission config_mode false handler false confirmer mission).mission.status
        = .failed ∧
      (execute_mission config_mode false handler false confirmer mission).mission.tasks
        = pre.map (completeTask handler) ++
            ({ task with status := .failed, error := some e } :: post) ∧
      (execute_mission config_mode false handler false confirmer mission).invoked
        = pre.map (·.name) ∧
      (execute_mission config_mode false handler false confirmer mission).ok = false) := by
  constructor
  · intro text m config_mode hm
    have ht : truthy (.str m) = true := by simpa [truthy] using hm
    constructor
    · rintro ⟨e, he⟩
      unfold enforce_task_restrictions at he
      simp only [ht, if_true, pyStr] at he
      by_cases hro : pyLower m = "read_only"
      · refine ⟨hro, ?_⟩
        by_cases hany : (["write", "delete", "move"] : List String).any
            (fun keyword => pyContains (pyLower text) keyword) = true
        · simpa using hany
        · rw [if_pos hro, if_neg (by simpa using hany)] at he
          cases he
      · rw [if_neg hro] at he
        cases he
    · rintro ⟨hro, kw, hkw, hc⟩
      refine ⟨"Forbidden in read_only mode", ?_⟩
      have hany : (["write", "delete", "move"] : List String).any
          (fun keyword => pyContains (pyLower text) keyword) = true :=
        List.any_eq_true.mpr ⟨kw, hkw, hc⟩
      unfold enforce_task_restrictions
      simp only [ht, if_true, pyStr]
      rw [if_pos hro, if_pos hany]
  · intro config_mode handler confirmer mission pre task post e hsplit henf hviol
    have key := execute_tasks_append_ok config_mode handler mission false confirmer
      pre (task :: post) (fun t _ => by simp) henf
    unfold execute_mission
    simp only [Bool.false_and, hsplit, key, execute_tasks, Bool.false_eq_true, if_false,
      execute_task, hviol]
    simp

/-- The mission used by the C4 witness: read-only mode declared in the
mission context, one task whose goal contains `delete`. -/
def c4WitMission : Mission :=
  { name := .str "m", description := .str "",
    metadata := [("context", .map [("mode", .str "read_only")])],
    tasks := [{ name := .str "t1", goal := "please delete it" }] }

/-- C4 witness: in read-only mode a goal containing `delete` fails
the task and the mission, without running the handler. -/
theorem C4_witness :
    ((∃ e, enforce_task_restrictions "please delete it" (.str "read_only") "write_enabled"
        = .error e) ↔
      (pyLower "read_only" = "read_only" ∧
        ∃ kw ∈ (["write", "delete", "move"] : List String),
          pyContains (pyLower "please delete it") kw = true)) ∧
    (execute_mission "write_enabled" false (fun _ => .ok "done") false (fun _ => true)
      c4WitMission).mission.status = .failed := by
  constructor
  · exact (C4_mode_restriction_blocks).1 "please delete it" "read_only" "write_enabled"
      (by decide)
  · exact ((C4_mode_restriction_blocks).2 "write_enabled" (fun _ => .ok "done")
      (fun _ => true) c4WitMission [] { name := .str "t1", goal := "please delete it" } []
      "Forbidden in read_only mode" rfl (by simp) rfl).1

/-- C6: with confirmation required (and auto-run off), a declined
confirmation on some task — every earlier task having been confirmed
and having passed the mode check — cancels that task and the
mission; the tasks after it are returned untouched (so an
all-PENDING suffix stays PENDING) and no handler runs for the
declined task or any later one. -/
theorem C6_declined_confirmation_cancels
    (config_mode : String) (handler : Task → Except String String)
    (confirmer : Task → Bool) (mission : Mission)
    (pre : List Task) (task : Task) (post : List Task)
    (hsplit : mission.tasks = pre ++ task :: post)
    (hconf : ∀ t ∈ pre, confirmer t = true)
    (henf : ∀ t ∈ pre,
      enforce_task_restrictions t.goal (bridge_get_mode mission) config_mode = .ok ())
    (hdecl : confirmer task = false) :
    (execute_mission config_mode false handler true confirmer mission).mission.status
      = .cancelled ∧
    (execute_mission config_mode false handler true confirmer mission).mission.tasks
      = pre.map (completeTask handler) ++
          ({ task with status := .cancelled } :: post) ∧
    (execute_mission config_mode false handler true confirmer mission).invoked
      = pre.map (·.name) ∧
    (execute_mission config_mode false handler true confirmer mission).ok = false := by
  have key := execute_tasks_append_ok config_mode handler mission true confirmer
    pre (task :: post) (fun t ht => by simp [hconf t ht]) henf
  unfold execute_mission
  simp only [Bool.and_true, Bool.not_false, hsplit, key, execute_tasks, hdecl,
    Bool.not_false, Bool.and_self, if_true]
  simp

/-- The mission used by the C6 witness. -/
def c6WitMission : Mission :=
  { name := .str "m", description := .str "",
    tasks := [{ name := .str "t1", goal := "g1" },
              { name := .str "t2", goal := "g2" }] }

/-- The first task of `c6WitMission`. -/
def c6WitTask : Task := { name := .str "t1", goal := "g1" }

/-- C6 witness: a two-task mission whose confirmer declines the first
task ends CANCELLED with both tasks unexecuted. -/
theorem C6_witness :
    (execute_mission "write_enabled" false (fun _ => .ok "done") true (fun _ => false)
      c6WitMission).mission.status = .cancelled ∧
    ((execute_mission "write_enabled" false (fun _ => .ok "done") true (fun _ => false)
      c6WitMission).mission.tasks.map Task.status) = [.cancelled, .pending] := by
  have h := C6_declined_confirmation_cancels "write_enabled" (fun _ => .ok "done")
    (fun _ => false) c6WitMission
    [] c6WitTask [{ name := .str "t2", goal := "g2" }]
    rfl (by simp) (by simp) rfl
  refine ⟨h.1, ?_⟩
  rw [h.2.1]
  rfl

/-! ## `ContextBridge.register_output` (`src/core/context_bridge.py`)

Output records are Python dictionaries; they are modelled as
insertion-ordered association lists with `YVal` values, exactly like
every other dictionary in this development.  `datetime.utcnow()` is
the explicit parameter `now`. -/

/-- Python `d[k] = v`: replace the value of the (unique) occurrence
of the key in place, append when absent. -/
def dSet : List (String × YVal) → String → YVal → List (String × YVal)
  | [], k, v => [(k, v)]
  | kv :: rest, k, v =>
    if kv.1 == k then (kv.1, v) :: rest else kv :: dSet rest k v

/-- Python `d.setdefault(k, v)`. -/
def dSetdefault (d : List (String × YVal)) (k : String) (v : YVal) : List (String × YVal) :=
  if d.any (fun kv => kv.1 == k) then d else d ++ [(k, v)]

/-- Python `d.update(src)`. -/
def dUpdate (d src : List (String × YVal)) : List (String × YVal) :=
  src.foldl (fun acc kv => dSet acc kv.1 kv.2) d

/-- The `item.get("destination") == normalized_destination` test of
the lookup loop in `register_output` (Python `==` between an
arbitrary value and a string is only true for that string). -/
def outputMatches (nd : String) (item : List (String × YVal)) : Bool :=
  match yGet item "destination" with
  | .str s => s == nd
  | _ => false

/-- Replace the first element satisfying `p` by its image under `f`
(the Python loop mutates the found dictionary in place). -/
def updateFirst {α : Type} (p : α → Bool) (f : α → α) : List α → List α
  | [] => []
  | x :: rest => if p x then f x :: rest else x :: updateFirst p f rest

/-- `ContextBridge.register_output(destination, **metadata)`: find the
record with this destination; pop `status` from the metadata
(default `"created"`); create the record (appending it) when absent,
else set its status; merge the remaining metadata into the record;
`setdefault` the `updated_at` timestamp. -/
def register_output (outputs : List (List (String × YVal))) (destination : String)
    (metadata : List (String × YVal)) (now : String) : List (List (String × YVal)) :=
  let status := if yHasKey metadata "status" then yGet metadata "status" else .str "created"
  let metadataRest := metadata.filter (fun kv => kv.1 ≠ "status")
  let upd := fun record =>
    dSetdefault (dUpdate (dSet record "status" status) metadataRest) "updated_at" (.str now)
  if outputs.any (outputMatches destination) then
    updateFirst (outputMatches destination) upd outputs
  else
    outputs ++ [upd [("destination", .str destination), ("status", status)]]

theorem updateFirst_length {α : Type} (p : α → Bool) (f : α → α) (l : List α) :
    (updateFirst p f l).length = l.length := by
  induction l with
  | nil => rfl
  | cons x rest ih =>
    unfold updateFirst
    split <;> simp [ih]

theorem yGet_cons (kv : String × YVal) (rest : List (String × YVal)) (k : String) :
    yGet (kv :: rest) k = if kv.1 = k then kv.2 else yGet rest k := by
  unfold yGet
  by_cases h : kv.1 = k
  · rw [List.find?_cons_of_pos _ (by simpa using h), if_pos h]
  · rw [List.find?_cons_of_neg _ (by simpa using h), if_neg h]

theorem yGet_dSet_self (d : List (String × YVal)) (k : String) (v : YVal) :
    yGet (dSet d k v) k = v := by
  induction d with
  | nil => simp [dSet, yGet_cons]
  | cons kv rest ih =>
    unfold dSet
    by_cases hk : kv.1 = k
    · rw [if_pos (by simpa using hk), yGet_cons, if_pos hk]
    · rw [if_neg (by simpa using hk), yGet_cons, if_neg hk]
      exact ih

theorem yGet_dSet_ne (d : List (String × YVal)) (k k' : String) (v : YVal)
    (h : k' ≠ k) : yGet (dSet d k v) k' = yGet d k' := by
  induction d with
  | nil =>
    simp only [dSet, yGet_cons]
    rw [if_neg (fun he => h he.symm)]
  | cons kv rest ih =>
    unfold dSet
    by_cases hk : kv.1 = k
    · rw [if_pos (by simpa using hk), yGet_cons, yGet_cons]
      have hne : ¬kv.1 = k' := fun he => h (he.symm.trans hk)
      rw [if_neg hne, if_neg hne]
    · rw [if_neg (by simpa using hk), yGet_cons, yGet_cons]
      by_cases hk' : kv.1 = k'
      · rw [if_pos hk', if_pos hk']
      · rw [if_neg hk', if_neg hk']
        exact ih

theorem yGet_dUpdate_not_mem (d src : List (String × YVal)) (k : String)
    (h : yHasKey src k = false) : yGet (dUpdate d src) k = yGet d k := by
  induction src generalizing d with
  | nil => rfl
  | cons kv rest ih =>
    simp only [yHasKey, List.any_cons, Bool.or_eq_false_iff] at h
    show yGet (dUpdate (dSet d kv.1 kv.2) rest) k = yGet d k
    rw [ih _ (by simp [yHasKey, h.2])]
    have hne : kv.1 ≠ k := by simpa using h.1
    exact yGet_dSet_ne d kv.1 k kv.2 (fun he => hne he.symm)

theorem yGet_append_single_ne (d : List (String × YVal)) (k k' : String) (v : YVal)
    (h : k' ≠ k) : yGet (d ++ [(k, v)]) k' = yGet d k' := by
  induction d with
  | nil =>
    simp only [List.nil_append, yGet_cons]
    rw [if_neg (fun he => h he.symm)]
  | cons kv rest ih =>
    simp only [List.cons_append, yGet_cons]
    by_cases hk' : kv.1 = k'
    · rw [if_pos hk', if_pos hk']
    · rw [if_neg hk', if_neg hk']
      exact ih

theorem yGet_dSetdefault_ne (d : List (String × YVal)) (k k' : String) (v : YVal)
    (h : k' ≠ k) : yGet (dSetdefault d k v) k' = yGet d k' := by
  unfold dSetdefault
  split
  · rfl
  · exact yGet_append_single_ne d k k' v h

theorem yHasKey_filter_false (metadata : List (String × YVal)) (q : String × YVal → Bool)
    (k : String) (h : yHasKey metadata k = false) :
    yHasKey (metadata.filter q) k = false := by
  induction metadata with
  | nil => rfl
  | cons kv rest ih =>
    simp only [yHasKey, List.any_cons, Bool.or_eq_false_iff] at h
    simp only [List.filter]
    cases hq : q kv with
    | true =>
      simp only [yHasKey, List.any_cons, Bool.or_eq_false_iff]
      exact ⟨h.1, ih h.2⟩
    | false => exact ih h.2

theorem yHasKey_filter_ne_self (metadata : List (String × YVal)) (k : String) :
    yHasKey (metadata.filter fun kv => kv.1 ≠ k) k = false := by
  induction metadata with
  | nil => rfl
  | cons kv rest ih =>
    simp only [List.filter]
    by_cases hk : kv.1 = k
    · simp only [show (decide ¬kv.1 = k) = false by simp [hk]]
      exact ih
    · simp only [show (decide ¬kv.1 = k) = true by simp [hk]]
      simp only [yHasKey, List.any_cons, Bool.or_eq_false_iff]
      exact ⟨by simpa using hk, ih⟩

theorem any_updateFirst {α : Type} (p : α → Bool) (f : α → α) (l : List α)
    (hpf : ∀ x, p x = true → p (f x) = true) :
    (updateFirst p f l).any p = l.any p := by
  induction l with
  | nil => rfl
  | cons x rest ih =>
    unfold updateFirst
    by_cases hx : p x = true
    · rw [if_pos hx]
      simp [hx, hpf x hx]
    · rw [if_neg hx]
      simp only [List.any_cons, ih]

theorem find?_updateFirst {α : Type} (p : α → Bool) (f : α → α) (l : List α)
    (hpf : ∀ x, p x = true → p (f x) = true) :
    (updateFirst p f l).find? p = (l.find? p).map f := by
  induction l with
  | nil => rfl
  | cons x rest ih =>
    unfold updateFirst
    by_cases hx : p x = true
    · rw [if_pos hx, List.find?_cons_of_pos _ (hpf x hx), List.find?_cons_of_pos _ hx]
      rfl
    · rw [if_neg hx, List.find?_cons_of_neg _ hx, List.find?_cons_of_neg _ hx]
      exact ih

/-- The record update performed by `register_output` on the found (or
freshly created) record. -/
def registerUpd (metadata : List (String × YVal)) (now : String)
    (record : List (String × YVal)) : List (String × YVal) :=
  let status := if yHasKey metadata "status" then yGet metadata "status" else .str "created"
  dSetdefault (dUpdate (dSet record "status" status) (metadata.filter fun kv => kv.1 ≠ "status"))
    "updated_at" (.str now)

theorem register_output_eq (outputs : List (List (String × YVal))) (destination : String)
    (metadata : List (String × YVal)) (now : String) :
    register_output outputs destination metadata now =
      if outputs.any (outputMatches destination) then
        updateFirst (outputMatches destination) (registerUpd metadata now) outputs
      else
        outputs ++ [registerUpd metadata now
          [("destination", .str destination),
           ("status", if yHasKey metadata "status" then yGet metadata "status"
                      else .str "created")]] := rfl

theorem registerUpd_destination (metadata : List (String × YVal)) (now : String)
    (record : List (String × YVal))
    (hmd : yHasKey metadata "destination" = false) :
    yGet (registerUpd metadata now record) "destination" = yGet record "destination" := by
  unfold registerUpd
  rw [yGet_dSetdefault_ne _ _ _ _ (by decide)]
  rw [yGet_dUpdate_not_mem _ _ _ (yHasKey_filter_false _ _ _ hmd)]
  rw [yGet_dSet_ne _ _ _ _ (by decide)]

theorem registerUpd_matches (destination : String) (metadata : List (String × YVal))
    (now : String) (record : List (String × YVal))
    (hmd : yHasKey metadata "destination" = false)
    (h : outputMatches destination record = true) :
    outputMatches destination (registerUpd metadata now record) = true := by
  unfold outputMatches at h ⊢
  rw [registerUpd_destination _ _ _ hmd]
  exact h

theorem registerUpd_status (metadata : List (String × YVal)) (now : String)
    (record : List (String × YVal)) :
    yGet (registerUpd metadata now record) "status"
      = (if yHasKey metadata "status" then yGet metadata "status" else .str "created") := by
  unfold registerUpd
  rw [yGet_dSetdefault_ne _ _ _ _ (by decide)]
  rw [yGet_dUpdate_not_mem _ _ _ (yHasKey_filter_ne_self _ _)]
  exact yGet_dSet_self _ _ _

theorem register_output_keeps_match (outputs : List (List (String × YVal)))
    (destination : String) (metadata : List (String × YVal)) (now : String)
    (hmd : yHasKey metadata "destination" = false) :
    (register_output outputs destination metadata now).any (outputMatches destination)
      = true := by
  rw [register_output_eq]
  by_cases hfound : outputs.any (outputMatches destination) = true
  · rw [if_pos hfound,
      any_updateFirst _ _ _ (fun x hx => registerUpd_matches _ _ _ _ hmd hx)]
    exact hfound
  · rw [if_neg hfound]
    rw [List.any_append]
    apply Bool.or_eq_true_iff.mpr
    right
    simp only [List.any_cons, List.any_nil, Bool.or_false]
    apply registerUpd_matches _ _ _ _ hmd
    unfold outputMatches
    rw [yGet_cons]
    simp

/-- C8: registering an output for a destination that already has a
record updates that record in place — the record count is unchanged
and the first record for that destination carries the new status —
and registering the same destination twice never grows the output
list.  The hypothesis that the metadata kwargs carry no
`destination` key is guaranteed in Python, where a duplicate of the
positional `destination` argument would be a `TypeError`. -/
theorem C8_register_output_upsert :
    (∀ (outputs : List (List (String × YVal))) (destination : String)
        (metadata : List (String × YVal)) (now : String),
      yHasKey metadata "destination" = false →
      outputs.any (outputMatches destination) = true →
      ((register_output outputs destination metadata now).length = outputs.length ∧
        ((register_output outputs destination metadata now).find?
            (outputMatches destination)).map (fun rec => yGet rec "status")
          = some (if yHasKey metadata "status" then yGet metadata "status"
                  else .str "created"))) ∧
    (∀ (outputs : List (List (String × YVal))) (destination : String)
        (md₁ md₂ : List (String × YVal)) (n₁ n₂ : String),
      yHasKey md₁ "destination" = false →
      (register_output (register_output outputs destination md₁ n₁) destination md₂ n₂).length
        = (register_output outputs destination md₁ n₁).length) := by
  constructor
  · intro outputs destination metadata now hmd hfound
    constructor
    · rw [register_output_eq, if_pos hfound]
      exact updateFirst_length _ _ _
    · rw [register_output_eq, if_pos hfound]
      rw [find?_updateFirst _ _ _ (fun x hx => registerUpd_matches _ _ _ _ hmd hx)]
      obtain ⟨rec0, hrec0⟩ := Option.isSome_iff_exists.mp
        (List.find?_isSome.mpr (by simpa using List.any_eq_true.mp hfound))
      rw [hrec0]
      simp only [Option.map_some', Option.map_map]
      rw [registerUpd_status metadata now rec0]
  · intro outputs destination md₁ md₂ n₁ n₂ hmd1
    have hany := register_output_keeps_match outputs destination md₁ n₁ hmd1
    rw [register_output_eq (register_output outputs destination md₁ n₁), if_pos hany]
    exact updateFirst_length _ _ _

/-- C8 witness: registering the same destination twice against an
initially empty output list leaves exactly one record, carrying the
second registration's status. -/
theorem C8_witness :
    yHasKey [("status", .str "created")] "destination" = false ∧
    (register_output
        (register_output [] "reports/out.md" [("status", .str "created")] "T1")
        "reports/out.md" [("status", .str "updated")] "T2").length
      = (register_output [] "reports/out.md" [("status", .str "created")] "T1").length ∧
    (register_output [] "reports/out.md" [("status", .str "created")] "T1").length = 1 := by
  refine ⟨rfl, ?_, rfl⟩
  exact (C8_register_output_upsert).2 [] "reports/out.md"
    [("status", .str "created")] [("status", .str "updated")] "T1" "T2" rfl

/-! ## Execution-context variables (`src/domain/services/task_logic_handler.py`)

`TaskLogicHandler._collect_variables` merges the mission
context-section variable map with the task's `variables` parameter
(task entries override), and `_resolve_placeholders` substitutes
`${NAME}` tokens.  Variable maps are Python dictionaries from
strings to strings, modelled as insertion-ordered association lists
with unique keys. -/

/-- Python `d[k] = v` on a string-valued dictionary. -/
def strSet : List (String × String) → String → String → List (String × String)
  | [], k, v => [(k, v)]
  | kv :: rest, k, v =>
    if kv.1 == k then (kv.1, v) :: rest else kv :: strSet rest k v

/-- Python `d.update(src)` on string-valued dictionaries. -/
def strUpdate (m src : List (String × String)) : List (String × String) :=
  src.foldl (fun acc kv => strSet acc kv.1 kv.2) m

/-- Python `d.get(k)` on a string-valued dictionary. -/
def strGet? (m : List (String × String)) (k : String) : Option String :=
  (m.find? (fun kv => kv.1 == k)).map (·.2)

/-- `TaskLogicHandler._coerce_variable_map`: a dict source keeps its
(truthy-keyed) entries stringified; a list source reads
`name`/`key` and `value` out of each dict entry; anything else
yields an empty map. -/
def _coerce_variable_map : YVal → List (String × String)
  | .map entries =>
    entries.foldl (fun mapping kv =>
      if kv.1 = "" then mapping
      else strSet mapping kv.1 (match kv.2 with | .null => "" | v => pyStr v)) []
  | .list entries =>
    entries.foldl (fun mapping entry =>
      match entry with
      | .map e =>
        let key := if truthy (yGet e "name") then yGet e "name" else yGet e "key"
        if truthy key then
          strSet mapping (pyStr key)
            (match yGet e "value" with | .null => "" | v => pyStr v)
        else mapping
      | _ => mapping) []
  | _ => []

/-- `TaskLogicHandler._collect_variables`: start from an empty dict
and `update` it with the coerced context-section variables, then
with the coerced task-parameter variables (which therefore win on
key collisions). -/
def _collect_variables (params context_section : List (String × YVal)) :
    List (String × String) :=
  strUpdate (strUpdate [] (_coerce_variable_map (yGet context_section "variables")))
    (_coerce_variable_map (yGet params "variables"))

/-- The literal `${key}` token used by `_resolve_placeholders`. -/
def varToken (key : String) : String := "$\x7b" ++ key ++ "\x7d"

/-- The string case of `_resolve_placeholders`: one `str.replace` per
variable, in dictionary insertion order. -/
def resolveString (value : String) (vars : List (String × String)) : String :=
  vars.foldl (fun result kv => pyReplace result (varToken kv.1) kv.2) value

/-- Container recursion of `_resolve_placeholders`, fuel-structured
for kernel evaluation (every child has a strictly smaller `ysize`,
so the `fuel = 0` branch is unreachable). -/
def resolveFuel (vars : List (String × String)) : Nat → YVal → YVal
  | 0, v => v
  | fuel + 1, v =>
    match v with
    | .str s => .str (resolveString s vars)
    | .list items => .list (items.map (resolveFuel vars fuel))
    | .map entries => .map (entries.map fun kv => (kv.1, resolveFuel vars fuel kv.2))
    | v => v

/-- `_resolve_placeholders(value, variables)`: replace `${NAME}`
tokens in strings, recursing into lists and dicts; other values are
returned unchanged. -/
def _resolve_placeholders (v : YVal) (vars : List (String × String)) : YVal :=
  match v with
  | .str s => .str (resolveString s vars)
  | .list items => resolveFuel vars (ysize (.list items)) (.list items)
  | .map entries => resolveFuel vars (ysize (.map entries)) (.map entries)
  | v => v

theorem strGet?_cons (kv : String × String) (rest : List (String × String)) (k : String) :
    strGet? (kv :: rest) k = if kv.1 = k then some kv.2 else strGet? rest k := by
  unfold strGet?
  by_cases h : kv.1 = k
  · rw [List.find?_cons_of_pos _ (by simpa using h), if_pos h]
    rfl
  · rw [List.find?_cons_of_neg _ (by simpa using h), if_neg h]

theorem strGet?_strSet_self (m : List (String × String)) (k : String) (v : String) :
    strGet? (strSet m k v) k = some v := by
  induction m with
  | nil => simp [strSet, strGet?_cons]
  | cons kv rest ih =>
    unfold strSet
    by_cases hk : kv.1 = k
    · rw [if_pos (by simpa using hk), strGet?_cons, if_pos hk]
    · rw [if_neg (by simpa using hk), strGet?_cons, if_neg hk]
      exact ih

theorem strGet?_strSet_ne (m : List (String × String)) (k k' : String) (v : String)
    (h : k' ≠ k) : strGet? (strSet m k v) k' = strGet? m k' := by
  induction m with
  | nil =>
    simp only [strSet, strGet?_cons]
    rw [if_neg (fun he => h he.symm)]
  | cons kv rest ih =>
    unfold strSet
    by_cases hk : kv.1 = k
    · rw [if_pos (by simpa using hk), strGet?_cons, strGet?_cons]
      have hne : ¬kv.1 = k' := fun he => h (he.symm.trans hk)
      rw [if_neg hne, if_neg hne]
    · rw [if_neg (by simpa using hk), strGet?_cons, strGet?_cons]
      by_cases hk' : kv.1 = k'
      · rw [if_pos hk', if_pos hk']
      · rw [if_neg hk', if_neg hk']
        exact ih

theorem strGet?_strUpdate (src : List (String × String)) :
    ∀ (m : List (String × String)) (k : String),
      strGet? (strUpdate m src) k
        = (strGet? (strUpdate [] src) k).orElse (fun _ => strGet? m k) := by
  induction src with
  | nil =>
    intro m k
    show strGet? m k = (strGet? ([] : List (String × String)) k).orElse (fun _ => strGet? m k)
    rfl
  | cons kv rest ih =>
    intro m k
    show strGet? (strUpdate (strSet m kv.1 kv.2) rest) k = _
    rw [ih (strSet m kv.1 kv.2) k]
    have hrhs : strGet? (strUpdate [] (kv :: rest)) k
        = (strGet? (strUpdate [] rest) k).orElse (fun _ => strGet? [(kv.1, kv.2)] k) := by
      show strGet? (strUpdate (strSet [] kv.1 kv.2) rest) k = _
      rw [ih (strSet [] kv.1 kv.2) k]
      rfl
    rw [hrhs]
    by_cases hk : k = kv.1
    · subst hk
      have h1 : strGet? (strSet m kv.1 kv.2) kv.1 = some kv.2 := strGet?_strSet_self m kv.1 kv.2
      have h2 : strGet? [(kv.1, kv.2)] kv.1 = some kv.2 := by
        rw [strGet?_cons, if_pos rfl]
      rw [h1, h2]
      cases strGet? (strUpdate [] rest) kv.1 <;> rfl
    · have h1 : strGet? (strSet m kv.1 kv.2) k = strGet? m k :=
        strGet?_strSet_ne m kv.1 k kv.2 hk
      have h2 : strGet? [(kv.1, kv.2)] k = none := by
        rw [strGet?_cons, if_neg (fun he => hk he.symm)]
        rfl
      rw [h1, h2]
      cases strGet? (strUpdate [] rest) k <;> cases strGet? m k <;> rfl

/-- Keys of a string dictionary. -/
def strKeys (m : List (String × String)) : List String := m.map Prod.fst

theorem strGet?_eq_none_of_not_mem (m : List (String × String)) (k : String)
    (h : k ∉ strKeys m) : strGet? m k = none := by
  induction m with
  | nil => rfl
  | cons kv rest ih =>
    simp only [strKeys, List.map_cons, List.mem_cons, not_or] at h
    rw [strGet?_cons, if_neg (show ¬kv.1 = k from fun he => h.1 he.symm)]
    exact ih (by simpa [strKeys] using h.2)

theorem strKeys_strSet (m : List (String × String)) (k : String) (v : String) :
    strKeys (strSet m k v) = if k ∈ strKeys m then strKeys m else strKeys m ++ [k] := by
  induction m with
  | nil => simp [strSet, strKeys]
  | cons kv rest ih =>
    unfold strSet
    by_cases hk : kv.1 = k
    · rw [if_pos (by simpa using hk)]
      simp [strKeys, hk]
    · rw [if_neg (by simpa using hk)]
      simp only [strKeys, List.map_cons] at ih ⊢
      rw [ih]
      by_cases hmem : k ∈ List.map Prod.fst rest
      · rw [if_pos hmem, if_pos (by simp [hmem])]
      · rw [if_neg hmem, if_neg (by
            simp only [List.mem_cons, not_or]
            exact ⟨fun he => hk he.symm, hmem⟩),
          List.cons_append]

theorem strKeys_nodup_strSet (m : List (String × String)) (k : String) (v : String)
    (h : (strKeys m).Nodup) : (strKeys (strSet m k v)).Nodup := by
  rw [strKeys_strSet]
  by_cases hmem : k ∈ strKeys m
  · rw [if_pos hmem]
    exact h
  · rw [if_neg hmem]
    simpa [List.nodup_append] using ⟨h, hmem⟩

theorem strUpdate_nil_strGet? (src : List (String × String))
    (hnd : (strKeys src).Nodup) (k : String) :
    strGet? (strUpdate [] src) k = strGet? src k := by
  induction src with
  | nil => rfl
  | cons kv rest ih =>
    simp only [strKeys, List.map_cons, List.nodup_cons] at hnd
    have step : strGet? (strUpdate [] (kv :: rest)) k
        = (strGet? (strUpdate [] rest) k).orElse (fun _ => strGet? [(kv.1, kv.2)] k) := by
      show strGet? (strUpdate (strSet [] kv.1 kv.2) rest) k = _
      rw [strGet?_strUpdate rest (strSet [] kv.1 kv.2) k]
      rfl
    rw [step, ih (by simpa [strKeys] using hnd.2)]
    by_cases hk : kv.1 = k
    · subst hk
      have h1 : strGet? [(kv.1, kv.2)] kv.1 = some kv.2 := by
        rw [strGet?_cons, if_pos rfl]
      have h3 : strGet? rest kv.1 = none :=
        strGet?_eq_none_of_not_mem rest kv.1 (by simpa [strKeys] using hnd.1)
      rw [h1, h3, strGet?_cons, if_pos rfl]
      rfl
    · have h2 : strGet? [(kv.1, kv.2)] k = none := by
        rw [strGet?_cons, if_neg hk]
        rfl
      rw [h2, strGet?_cons, if_neg hk]
      cases strGet? rest k <;> rfl

theorem coerce_variable_map_nodup (source : YVal) :
    (strKeys (_coerce_variable_map source)).Nodup := by
  have hfold : ∀ (step : List (String × String) → YVal → List (String × String)),
      (∀ acc v, (strKeys acc).Nodup → (strKeys (step acc v)).Nodup) →
      ∀ (entries : List YVal) (acc : List (String × String)),
        (strKeys acc).Nodup → (strKeys (entries.foldl step acc)).Nodup := by
    intro step hstep entries
    induction entries with
    | nil => exact fun acc h => h
    | cons e rest ih => exact fun acc h => ih _ (hstep acc e h)
  have hfoldkv : ∀ (step : List (String × String) → String × YVal → List (String × String)),
      (∀ acc v, (strKeys acc).Nodup → (strKeys (step acc v)).Nodup) →
      ∀ (entries : List (String × YVal)) (acc : List (String × String)),
        (strKeys acc).Nodup → (strKeys (entries.foldl step acc)).Nodup := by
    intro step hstep entries
    induction entries with
    | nil => exact fun acc h => h
    | cons e rest ih => exact fun acc h => ih _ (hstep acc e h)
  cases source with
  | map entries =>
    apply hfoldkv _ _ entries [] (by simp [strKeys])
    intro acc kv h
    dsimp only
    split
    · exact h
    · exact strKeys_nodup_strSet _ _ _ h
  | list entries =>
    apply hfold _ _ entries [] (by simp [strKeys])
    intro acc v h
    dsimp only
    match v with
    | .map e =>
      dsimp only
      split <;> (try split) <;> first
        | exact strKeys_nodup_strSet _ _ _ h
        | exact h
    | .null | .bool _ | .int _ | .str _ | .list _ => exact h
  | null => simp [_coerce_variable_map, strKeys]
  | bool b => simp [_coerce_variable_map, strKeys]
  | int n => simp [_coerce_variable_map, strKeys]
  | str s => simp [_coerce_variable_map, strKeys]

/-- A variable name is sane when it is non-empty and contains none of
the token delimiter characters.  Every name for which the spec's
`${NAME}` token reading is meaningful is sane. -/
def saneVarKey (k : String) : Prop :=
  k ≠ "" ∧ '$' ∉ k.data ∧ '\x7b' ∉ k.data ∧ '\x7d' ∉ k.data

instance (k : String) : Decidable (saneVarKey k) := by
  unfold saneVarKey
  infer_instance

theorem varToken_data (k : String) :
    (varToken k).data = '$' :: '\x7b' :: (k.data ++ ['\x7d']) := by
  show (("$\x7b" ++ k) ++ "\x7d").data = _
  rw [String.data_append, String.data_append]
  simp

theorem replaceChars_self (pat rep : List Char) (h : pat ≠ []) :
    replaceChars pat rep pat = rep := by
  cases hp : pat with
  | nil => exact absurd hp h
  | cons c rest =>
    rw [replaceChars_cons]
    rw [if_pos ⟨hp ▸ h, by simp [List.isPrefixOf_iff_prefix]⟩]
    rw [show (c :: rest).drop (c :: rest).length = [] from List.drop_length _]
    rw [replaceChars_nil, List.append_nil]

theorem replaceChars_no_dollar (p rep s : List Char) (hs : '$' ∉ s) :
    replaceChars ('$' :: p) rep s = s := by
  induction s with
  | nil => rfl
  | cons c rest ih =>
    simp only [List.mem_cons, not_or] at hs
    rw [replaceChars_cons, if_neg]
    · rw [ih hs.2]
    · rintro ⟨-, hpre⟩
      rcases List.isPrefixOf_iff_prefix.mp hpre with ⟨t, ht⟩
      rw [List.cons_append] at ht
      injection ht with hc _
      exact hs.1 hc

theorem append_rbrace_isPrefixOf (a : List Char) :
    ∀ b : List Char, '\x7d' ∉ a → '\x7d' ∉ b →
      ((a ++ ['\x7d']).isPrefixOf (b ++ ['\x7d']) = true ↔ a = b) := by
  induction a with
  | nil =>
    intro b _ hb
    cases b with
    | nil => simp
    | cons y b' =>
      simp only [List.mem_cons, not_or] at hb
      constructor
      · intro h
        exfalso
        have hby : ('\x7d' == y) = false := beq_eq_false_iff_ne.mpr hb.1
        simp only [List.nil_append, List.cons_append, List.isPrefixOf, hby,
          Bool.false_and] at h
        exact Bool.false_ne_true h
      · intro h
        cases h
  | cons x a' ih =>
    intro b ha hb
    simp only [List.mem_cons, not_or] at ha
    cases b with
    | nil =>
      constructor
      · intro h
        exfalso
        have hax : (x == '\x7d') = false :=
          beq_eq_false_iff_ne.mpr (fun he => ha.1 he.symm)
        simp only [List.cons_append, List.nil_append, List.isPrefixOf, hax,
          Bool.false_and] at h
        exact Bool.false_ne_true h
      · intro h
        cases h
    | cons y b' =>
      simp only [List.mem_cons, not_or] at hb
      simp only [List.cons_append, List.isPrefixOf, Bool.and_eq_true, beq_iff_eq,
        List.append_eq, ih b' ha.2 hb.2, List.cons.injEq]

theorem pyReplace_token_self (k rep : String) :
    pyReplace (varToken k) (varToken k) rep = rep := by
  show (⟨replaceChars (varToken k).data rep.data (varToken k).data⟩ : String) = rep
  rw [replaceChars_self _ _ (by rw [varToken_data]; simp)]

theorem pyReplace_token_other (k₁ k₂ v : String)
    (h₁ : saneVarKey k₁) (h₂ : saneVarKey k₂) (hne : k₁ ≠ k₂) :
    pyReplace (varToken k₁) (varToken k₂) v = varToken k₁ := by
  show (⟨replaceChars (varToken k₂).data v.data (varToken k₁).data⟩ : String) = varToken k₁
  rw [varToken_data, varToken_data]
  rw [replaceChars_cons, if_neg]
  · rw [replaceChars_no_dollar _ _ _ (by
      simp only [List.mem_cons, not_or, List.mem_append, List.mem_singleton]
      refine ⟨by decide, ?_, by decide⟩
      exact h₁.2.1)]
    rw [← varToken_data]
  · rintro ⟨-, hpre⟩
    simp only [List.isPrefixOf, Bool.and_eq_true, beq_iff_eq] at hpre
    have := (append_rbrace_isPrefixOf k₂.data k₁.data h₂.2.2.2 h₁.2.2.2).mp hpre.2.2
    exact hne (String.ext this.symm)

/-- The C9 counterexample variable map, in the exact shape
`_collect_variables` produces it (mission context declares `A`, the
task declares `B`, insertion order `A` then `B`). -/
def c9Vars : List (String × String) := [("A", varToken "B"), ("B", "val")]

/-- C9 counterexample: with variables `A = "${B}"` (from the mission
context) and `B = "val"` (from the task), resolving the string
`"${A}"` yields `"val"`: the `${B}` token introduced by substituting
`A` IS substituted again in the same pass, because `B` comes later
in the map order — the claim says it would be left as `"${B}"`. -/
theorem C9_counterexample :
    _collect_variables [("variables", .map [("B", .str "val")])]
        [("variables", .map [("A", .str (varToken "B"))])] = c9Vars ∧
    resolveString (varToken "A") c9Vars = "val" ∧
    ("val" : String) ≠ varToken "B" := by
  refine ⟨rfl, rfl, by decide⟩

/-- C9 (amended): the execution-context variable map is the union of
the mission context-section map and the task `variables` parameter
with the task-level entry winning on every collision (as claimed);
placeholder substitution, however, applies the variable map
sequentially in insertion order — a substituted value containing a
`${OTHER}` token is substituted again exactly when OTHER occurs
later in the map order, and left alone when OTHER occurs earlier (no
fixpoint iteration). -/
theorem C9_variable_merge_and_substitution_order :
    (∀ (params context_section : List (String × YVal)) (k : String),
      strGet? (_collect_variables params context_section) k
        = (strGet? (_coerce_variable_map (yGet params "variables")) k).orElse
            (fun _ => strGet? (_coerce_variable_map (yGet context_section "variables")) k)) ∧
    (∀ (k₁ k₂ v₂ : String), saneVarKey k₁ → saneVarKey k₂ → k₁ ≠ k₂ →
      resolveString (varToken k₁) [(k₁, varToken k₂), (k₂, v₂)] = v₂ ∧
      resolveString (varToken k₁) [(k₂, v₂), (k₁, varToken k₂)] = varToken k₂) := by
  constructor
  · intro params context_section k
    unfold _collect_variables
    rw [strGet?_strUpdate]
    rw [strUpdate_nil_strGet? _ (coerce_variable_map_nodup _) k]
    rw [strUpdate_nil_strGet? _ (coerce_variable_map_nodup _) k]
  · intro k₁ k₂ v₂ h₁ h₂ hne
    constructor
    · show resolveString (pyReplace (varToken k₁) (varToken k₁) (varToken k₂)) [(k₂, v₂)] = v₂
      rw [pyReplace_token_self]
      show pyReplace (varToken k₂) (varToken k₂) v₂ = v₂
      exact pyReplace_token_self _ _
    · show resolveString (pyReplace (varToken k₁) (varToken k₂) v₂) [(k₁, varToken k₂)]
        = varToken k₂
      rw [pyReplace_token_other k₁ k₂ v₂ h₁ h₂ hne]
      show pyReplace (varToken k₁) (varToken k₁) (varToken k₂) = varToken k₂
      exact pyReplace_token_self _ _

/-- C9 witness for the amended theorem: a colliding key `B` resolves
to the task-level value, and the two substitution orders of the
amended theorem evaluated at `A`, `B`, `"val"`. -/
theorem C9_witness :
    strGet? (_collect_variables [("variables", .map [("B", .str "task")])]
        [("variables", .map [("A", .str "mission"), ("B", .str "ctx")])]) "B"
      = some "task" ∧
    resolveString (varToken "A") [("A", varToken "B"), ("B", "val")] = "val" ∧
    resolveString (varToken "A") [("B", "val"), ("A", varToken "B")] = varToken "B" := by
  have h := C9_variable_merge_and_substitution_order
  have hb := h.2 "A" "B" "val" (by decide) (by decide) (by decide)
  refine ⟨?_, hb.1, hb.2⟩
  rw [h.1 [("variables", .map [("B", .str "task")])]
    [("variables", .map [("A", .str "mission"), ("B", .str "ctx")])] "B"]
  rfl

/-- C10: an empty mission reports progress 100, and a non-empty one
reports 100 times the COMPLETED-task count divided by the task
count. -/
theorem C10_get_progress (m : Mission) :
    (m.tasks = [] → m.get_progress = 100) ∧
    (m.tasks ≠ [] →
      m.get_progress
        = 100 * (m.get_completed_tasks.length : ℚ) / (m.tasks.length : ℚ)) := by
  constructor
  · intro h
    simp [Mission.get_progress, h]
  · intro h
    have hne : m.tasks.length ≠ 0 := by
      simpa using fun hl => h (List.length_eq_zero.mp hl)
    simp only [Mission.get_progress]
    rw [if_neg (by simpa [List.isEmpty_eq_true] using h)]
    field_simp
    ring

/-- The empty mission of the C10 witness. -/
def c10EmptyMission : Mission := { name := .str "m", description := .str "" }

/-- The half-completed two-task mission of the C10 witness. -/
def c10HalfMission : Mission :=
  { name := .str "m", description := .str "",
    tasks := [{ name := .str "t", goal := "g", status := .completed },
              { name := .str "u", goal := "h" }] }

/-- C10 witness: a freshly constructed empty mission reports 100, and
a half-completed two-task mission reports 100·1/2. -/
theorem C10_witness :
    c10EmptyMission.get_progress = 100 ∧
    c10HalfMission.get_progress = 100 * (1 : ℚ) / 2 := by
  constructor
  · exact (C10_get_progress c10EmptyMission).1 rfl
  · have h := (C10_get_progress c10HalfMission).2 (by simp [c10HalfMission])
    rw [h]
    have hc : c10HalfMission.get_completed_tasks.length = 1 := by decide
    have ht : c10HalfMission.tasks.length = 2 := by decide
    rw [hc, ht]
    norm_num

/-! ## `src/data/flex_yalm_parser.py` — the mission normalizer

`yaml.safe_load` is an external library call; `parse_content` takes
its outcome as the explicit input `loaded` (`.error` being a
`yaml.YAMLError`).  `datetime.utcnow().strftime(...)` is the
explicit input `now`.  The `isinstance(raw_task, Task)` branch of
`_coerce_task_blueprint` is omitted: values loaded from YAML are
never `Task` instances. -/

/-- Python exception taxonomy relevant to `parse_content`:
`FlexYALMParserError` (a ParseError) raised by the parser itself,
versus `ValueError` raised by the `Task`/`Mission` dataclass
validators. -/
inductive PyError where
  | parseError (msg : String)
  | valueError (msg : String)
deriving Repr, DecidableEq

/-- Characters kept by the slug regex `[^a-z0-9]+` (after lowering). -/
def isSlugChar (c : Char) : Bool :=
  (decide ('a'.toNat ≤ c.toNat) && decide (c.toNat ≤ 'z'.toNat)) ||
  (decide ('0'.toNat ≤ c.toNat) && decide (c.toNat ≤ '9'.toNat))

/-- Collapse runs of underscores to a single underscore (the effect
of the two `re.sub` calls of `_slugify` after every non-slug
character has been mapped to an underscore). -/
def collapseU : Bool → List Char → List Char
  | _, [] => []
  | prevU, c :: rest =>
    if c = '_' then
      if prevU then collapseU true rest else '_' :: collapseU true rest
    else
      c :: collapseU false rest

/-- `FlexYALMParser._slugify`: falsy input gives `""`; otherwise
strip, lower, map non-alphanumeric runs to single underscores, trim
underscores. -/
def _slugify : Option String → String
  | none => ""
  | some value =>
    if value = "" then ""
    else
      let lowered := (pyLower (pyStrip value)).data
      let mapped := lowered.map fun c => if isSlugChar c then c else '_'
      let collapsed := collapseU false mapped
      ⟨((collapsed.dropWhile (fun c => c = '_')).reverse.dropWhile
          (fun c => c = '_')).reverse⟩

/-- `pathlib.Path(source).stem`: the final path component without its
last suffix (a suffix needs an interior dot).  Trailing-slash and
dot-segment normalization of `Path` is not modelled; no embedded
call site produces such a source string. -/
def pathStem (source : String) : String :=
  let name := (source.data.reverse.takeWhile (fun c => c ≠ '/')).reverse
  let tailLen := (name.reverse.takeWhile (fun c => c ≠ '.')).length
  if tailLen = name.length then ⟨name⟩
  else
    let i := name.length - tailLen - 1
    if 0 < i ∧ i < name.length - 1 then ⟨name.take i⟩ else ⟨name⟩

/-- `FlexYALMParser._pick_first`: the first key whose value is not
`None`, else the default. -/
def _pick_first (mapping : List (String × YVal)) (keys : List String)
    (default : YVal) : YVal :=
  match keys with
  | [] => default
  | k :: rest =>
    match yGet mapping k with
    | .null => _pick_first mapping rest default
    | v => v

/-- A coerced task blueprint (the dict produced by
`_coerce_task_blueprint`). -/
structure Blueprint where
  name : YVal
  goal : String
  task_type : String
  parameters : List (String × YVal)
deriving Repr

/-- Join non-empty fragments with single spaces (`" ".join(...)`). -/
def joinSpace : List String → String
  | [] => ""
  | [s] => s
  | s :: rest => s ++ " " ++ joinSpace rest

/-- The keys of a task mapping that are consumed by the blueprint
itself; everything else is folded into the parameter map. -/
def blueprintConsumedKeys : List String :=
  ["name", "title", "id", "goal", "prompt", "description", "summary",
   "task_type", "type", "parameters"]

/-- `FlexYALMParser._coerce_task_blueprint`. -/
def _coerce_task_blueprint (index : Nat) (raw_task : YVal) : Except String Blueprint :=
  match raw_task with
  | .map m =>
    let name := _pick_first m ["name", "title", "id"] (.str ("task_" ++ toString index))
    let goal_value := _pick_first m ["goal", "prompt", "description", "summary"] .null
    let goal :=
      match goal_value with
      | .list items =>
        joinSpace ((items.map fun item => pyStrip (pyStr item)).filter fun s => s ≠ "")
      | gv => if truthy gv then pyStrip (pyStr gv) else ""
    if goal = "" then
      .error ("Task " ++ toString index ++ ": missing goal/description in provided mapping.")
    else
      let task_type := pyStr (_pick_first m ["task_type", "type"] (.str "instruction"))
      let baseParams :=
        match yGet m "parameters" with
        | .map p => p
        | .null => []
        | v => [("value", v)]
      let params := m.foldl (fun acc kv =>
        if kv.1 ∈ blueprintConsumedKeys then acc else dSet acc kv.1 kv.2) baseParams
      .ok ⟨name, goal, task_type, params⟩
  | .str s =>
    let goal := pyStrip s
    if goal = "" then
      .error ("Task " ++ toString index ++ ": empty instruction string.")
    else
      .ok ⟨.str ("task_" ++ toString index), goal, "instruction", []⟩
  | v =>
    .error ("Task " ++ toString index ++ ": unsupported structure \x27" ++ typeName v ++ "\x27.")

/-- The enumeration loop of `_build_task_blueprints` (Python
`enumerate(raw_tasks, start=1)`); a failing candidate contributes
its error message as a warning and is dropped. -/
def blueprintsAux (index : Nat) : List YVal → List Blueprint × List String
  | [] => ([], [])
  | t :: rest =>
    let tail := blueprintsAux (index + 1) rest
    match _coerce_task_blueprint index t with
    | .ok bp => (bp :: tail.1, tail.2)
    | .error w => (tail.1, w :: tail.2)

/-- `FlexYALMParser._build_task_blueprints`. -/
def _build_task_blueprints (raw_tasks : List YVal) : List Blueprint × List String :=
  blueprintsAux 1 raw_tasks

/-- `FlexYALMParser._coerce_task_container`. -/
def _coerce_task_container : YVal → List YVal
  | .null => []
  | .list l => l
  | .map m => m.map fun kv => .map [("name", .str kv.1), ("goal", kv.2)]
  | v => [v]

/-- `FlexYALMParser._ensure_iterable` (tuples and sets are not YAML
scalars and cannot occur here). -/
def _ensure_iterable : YVal → List YVal
  | .null => []
  | .list l => l
  | v => [v]

/-- The `extend_from` closure of `_collect_implicit_tasks`: a
non-empty source appends a `(source, count)` trace entry and
contributes all its items. -/
def extendFrom (state : List YVal × List (String × Nat)) (value : YVal)
    (source : String) : List YVal × List (String × Nat) :=
  let items := _ensure_iterable value
  if items.isEmpty then state
  else (state.1 ++ items, state.2 ++ [(source, items.length)])

/-- `FlexYALMParser._collect_implicit_tasks`. -/
def _collect_implicit_tasks (raw : List (String × YVal)) :
    List YVal × List (String × Nat) :=
  let s0 : List YVal × List (String × Nat) := ([], [])
  let s1 :=
    match yGet raw "meta" with
    | .map meta =>
      let s := extendFrom s0 (yGet meta "task") "meta.task"
      let s := extendFrom s (yGet meta "tasks") "meta.tasks"
      let s := extendFrom s (yGet meta "mission") "meta.mission"
      let s := extendFrom s (yGet meta "mission_prompt") "meta.mission_prompt"
      let s := extendFrom s (yGet meta "goal") "meta.goal"
      extendFrom s (yGet meta "prompt") "meta.prompt"
    | _ => s0
  let s2 := extendFrom s1 (yGet raw "mission") "root.mission"
  let s3 := extendFrom s2 (yGet raw "task") "root.task"
  let s4 := extendFrom s3 (yGet raw "prompt") "root.prompt"
  let s5 := extendFrom s4 (yGet raw "prompts") "root.prompts"
  let s6 := extendFrom s5 (yGet raw "instructions") "root.instructions"
  let s7 := extendFrom s6 (yGet raw "instruction") "root.instruction"
  let s8 := extendFrom s7 (yGet raw "steps") "root.steps"
  if s8.1.isEmpty && truthy (yGet raw "description") then
    extendFrom s8 (yGet raw "description") "root.description"
  else s8

/-- Modelled from the spec: the ordered list of implicit task
sources of §4.2 — six `meta.*` keys (when `meta` is a mapping)
followed by seven root-level keys — used only to state the C7
refinement. -/
def specImplicitSources (raw : List (String × YVal)) : List (String × YVal) :=
  (match yGet raw "meta" with
   | .map meta =>
     [("meta.task", yGet meta "task"), ("meta.tasks", yGet meta "tasks"),
      ("meta.mission", yGet meta "mission"),
      ("meta.mission_prompt", yGet meta "mission_prompt"),
      ("meta.goal", yGet meta "goal"), ("meta.prompt", yGet meta "prompt")]
   | _ => []) ++
  [("root.mission", yGet raw "mission"), ("root.task", yGet raw "task"),
   ("root.prompt", yGet raw "prompt"), ("root.prompts", yGet raw "prompts"),
   ("root.instructions", yGet raw "instructions"),
   ("root.instruction", yGet raw "instruction"), ("root.steps", yGet raw "steps")]

/-- Modelled from the spec: harvest the sources of
`specImplicitSources` in order, each non-empty source contributing
all its items and one `(source-name, item-count)` trace entry, then
`description` only if nothing was contributed. -/
def specHarvest (raw : List (String × YVal)) : List YVal × List (String × Nat) :=
  let base := (specImplicitSources raw).foldl (fun st sv => extendFrom st sv.2 sv.1) ([], [])
  if base.1.isEmpty && truthy (yGet raw "description") then
    extendFrom base (yGet raw "description") "root.description"
  else base

/-- The explicit-tasks gate of `_normalize` (lines 102–118): a
non-empty coerced `tasks` container is the sole candidate source,
otherwise the implicit harvest runs. -/
def explicitOrImplicitCandidates (raw : List (String × YVal)) :
    List YVal × List (String × Nat) :=
  let explicit_tasks := _coerce_task_container (yGet raw "tasks")
  if !explicit_tasks.isEmpty then (explicit_tasks, [("tasks", explicit_tasks.length)])
  else _collect_implicit_tasks raw

/-- Python `a or b` on loaded values. -/
def pyOr (a b : YVal) : YVal := if truthy a then a else b

/-- Stable ascending insertion for `sorted(raw.keys())`. -/
def insertSorted (s : String) : List String → List String
  | [] => [s]
  | x :: rest => if s ≤ x then s :: x :: rest else x :: insertSorted s rest

/-- Python `sorted` on strings (code-point lexicographic). -/
def sortStrings (l : List String) : List String := l.foldr insertSorted []

/-- `FlexYALMParser._build_meta`: candidate names from meta keys,
root keys, the fallback name and the source stem; the first truthy
candidate is slugified, defaulting to a timestamped name, and
`project_name`/`mission_id`/`version` are set with `setdefault`. -/
def _build_meta (meta0 : Option (List (String × YVal))) (fallback_name : Option String)
    (source : Option String) (root : Option (List (String × YVal))) (now : String) :
    List (String × YVal) :=
  let meta := meta0.getD []
  let cands1 := (["project_name", "mission_id", "name", "title"]).foldl
    (fun acc key =>
      match yGet meta key with
      | .str s => if pyStrip s ≠ "" then acc ++ [pyStrip s] else acc
      | _ => acc) []
  let cands2 :=
    match root with
    | some r =>
      if r.isEmpty then cands1
      else (["project_name", "mission", "mission_name", "name", "title"]).foldl
        (fun acc key =>
          match yGet r key with
          | .str s => if pyStrip s ≠ "" then acc ++ [pyStrip s] else acc
          | _ => acc) cands1
    | none => cands1
  let cands3 :=
    match fallback_name with
    | some fn => if fn ≠ "" then cands2 ++ [fn] else cands2
    | none => cands2
  let cands4 :=
    match source with
    | some src => if src ≠ "" then cands3 ++ [pathStem src] else cands3
    | none => cands3
  let project_name0 := _slugify (cands4.find? fun c => c ≠ "")
  let project_name := if project_name0 = "" then "mission_" ++ now else project_name0
  dSetdefault
    (dSetdefault (dSetdefault meta "project_name" (.str project_name))
      "mission_id" (.str project_name))
    "version" (if yHasKey meta "version" then yGet meta "version" else .str "1.0.0")

/-- The normalized mission payload built by `_normalize`. -/
structure Normalized where
  meta : List (String × YVal)
  tasks : List Blueprint
  context : YVal
  outputs : YVal
  post_actions : YVal
  description_hint : YVal
deriving Repr

/-- The diagnostics record built by `_normalize`. -/
structure Diagnostics where
  source : Option String
  mode : String
  warnings : List String
  task_count : Nat
  provided_sections : List String
  primary_prompt : String
  fallback_chain : List (String × Nat)
deriving Repr

/-- The per-root-shape work of `_normalize` before the common
zero-task gate. -/
structure BranchOut where
  tasks : List Blueprint
  meta : List (String × YVal)
  context : YVal
  outputs : YVal
  post_actions : YVal
  description_hint : YVal
  mode : String
  provided_sections : List String
  fallback_trace : List (String × Nat)
  warnings : List String
deriving Repr

/-- The root-shape dispatch of `_normalize` (mapping / list / string
roots succeed with a `BranchOut`; a null or unsupported root raises
`FlexYALMParserError`). -/
def normalizeBranch (raw : YVal) (source fallback_name : Option String) (now : String) :
    Except PyError BranchOut :=
  match raw with
  | .map rawEntries =>
    let provided_sections := sortStrings (rawEntries.map Prod.fst)
    let raw_meta := match yGet rawEntries "meta" with | .map m => m | _ => []
    let explicit_tasks := _coerce_task_container (yGet rawEntries "tasks")
    let warnings1 :=
      if yHasKey rawEntries "meta" then []
      else ["Missing \x27meta\x27 section; generated fallback metadata."]
    let warnings2 := warnings1 ++
      (if truthy (yGet rawEntries "tasks") then []
       else ["Missing \x27tasks\x27 section; synthesizing tasks from prompts."])
    let candTrace := explicitOrImplicitCandidates rawEntries
    let built := _build_task_blueprints candTrace.1
    let warnings := warnings2 ++ built.2
    let meta := _build_meta (some raw_meta) fallback_name source (some rawEntries) now
    let context := pyOr (yGet rawEntries "context") (.map [])
    let outputs := yGet rawEntries "outputs"
    let post_actions := pyOr (yGet rawEntries "post_actions") (.list [])
    let description_hint := pyOr (yGet rawEntries "description")
      (pyOr (yGet raw_meta "description")
        (.str ((built.1.head?.map Blueprint.goal).getD "")))
    let mode :=
      if truthy (yGet rawEntries "prompt") && explicit_tasks.isEmpty then "meta_plus_prompt"
      else if yHasKey rawEntries "meta" && truthy (yGet rawEntries "tasks") then "strict"
      else if yHasKey rawEntries "meta" then "flex_meta"
      else if truthy (yGet rawEntries "tasks") then "tasks_only"
      else "prompt_only"
    .ok ⟨built.1, meta, context, outputs, post_actions, description_hint, mode,
         provided_sections, candTrace.2, warnings⟩
  | .list items =>
    let built := _build_task_blueprints items
    .ok ⟨built.1, _build_meta (some []) fallback_name source none now, .map [], .null,
         .list [], .str ((built.1.head?.map Blueprint.goal).getD ""), "prompt_list",
         ["<list>"], [("root_list", items.length)],
         "Root YAML list interpreted as sequential instructions." :: built.2⟩
  | .str s =>
    let built := _build_task_blueprints [.str s]
    .ok ⟨built.1, _build_meta (some []) fallback_name source none now, .map [], .null,
         .list [], .str ((built.1.head?.map Blueprint.goal).getD ""), "prompt_only",
         ["<string>"], [("root_string", 1)],
         "Root YAML string interpreted as single instruction." :: built.2⟩
  | .null => .error (.parseError "Empty YAML content.")
  | v => .error (.parseError ("Unsupported YAML root type: " ++ typeName v ++ "."))

/-- `FlexYALMParser._normalize`: dispatch on the root shape, then
fail with `FlexYALMParserError` when zero blueprints survived. -/
def _normalize (raw : YVal) (source fallback_name : Option String) (now : String) :
    Except PyError (Normalized × Diagnostics) :=
  match normalizeBranch raw source fallback_name now with
  | .error e => .error e
  | .ok b =>
    if b.tasks.isEmpty then
      .error (.parseError "Unable to synthesize at least one task from YAML content.")
    else
      .ok (⟨b.meta, b.tasks, b.context, b.outputs, b.post_actions, b.description_hint⟩,
           ⟨source, b.mode, b.warnings, b.tasks.length, b.provided_sections,
            (b.tasks.head?.map Blueprint.goal).getD "", b.fallback_trace⟩)

/-- The diagnostics dictionary as embedded into mission metadata
under `flex_parser`. -/
def diagnosticsToYVal (d : Diagnostics) : YVal :=
  .map [("source", match d.source with | some s => .str s | none => .null),
        ("mode", .str d.mode),
        ("warnings", .list (d.warnings.map .str)),
        ("task_count", .int d.task_count),
        ("provided_sections", .list (d.provided_sections.map .str)),
        ("primary_prompt", .str d.primary_prompt),
        ("fallback_chain", .list (d.fallback_chain.map fun sc =>
          .map [("source", .str sc.1), ("count", .int sc.2)]))]

/-- The task-construction loop of `_build_mission`; a dataclass
`ValueError` aborts it. -/
def buildTasks : List Blueprint → Except String (List Task)
  | [] => .ok []
  | bp :: rest =>
    match Task.mk? bp.name bp.goal bp.task_type bp.parameters with
    | .error e => .error e
    | .ok t =>
      match buildTasks rest with
      | .error e => .error e
      | .ok ts => .ok (t :: ts)

/-- `FlexYALMParser._build_mission`: builds the `Mission` dataclass
(whose validator may raise `ValueError`) and adds one `Task` per
blueprint (each validated the same way). -/
def _build_mission (normalized : Normalized) (diagnostics : Diagnostics) :
    Except String Mission :=
  let meta := normalized.meta
  let description := pyOr normalized.description_hint
    (if yHasKey meta "description" then yGet meta "description" else .str "")
  match Mission.mk? (yGet meta "project_name") (pyOr description (.str ""))
      [("version", if yHasKey meta "version" then yGet meta "version" else .str "1.0.0"),
       ("author", if yHasKey meta "author" then yGet meta "author" else .str ""),
       ("architecture",
        if yHasKey meta "architecture" then yGet meta "architecture" else .str ""),
       ("language", if yHasKey meta "language" then yGet meta "language" else .str ""),
       ("meta", .map meta),
       ("context", normalized.context),
       ("outputs", normalized.outputs),
       ("post_actions", normalized.post_actions),
       ("flex_parser", diagnosticsToYVal diagnostics)] with
  | .error e => .error e
  | .ok mission =>
    match buildTasks normalized.tasks with
    | .error e => .error e
    | .ok ts => .ok { mission with tasks := ts }

/-- `FlexYALMParser.parse_content`: empty or whitespace-only content
raises; a YAML syntax error raises; otherwise the loaded value is
normalized and the mission built.  `loaded` is the outcome of the
external `yaml.safe_load`. -/
def parse_content (content : String) (loaded : Except String YVal)
    (source fallback_name : Option String) (now : String) : Except PyError Mission :=
  if pyStrip content = "" then .error (.parseError "Empty YAML content.")
  else
    match loaded with
    | .error e => .error (.parseError ("Invalid YAML syntax: " ++ e))
    | .ok data =>
      match _normalize data source fallback_name now with
      | .error e => .error e
      | .ok nd =>
        match _build_mission nd.1 nd.2 with
        | .error msg => .error (.valueError msg)
        | .ok mission => .ok mission

theorem coerce_blueprint_goal_ne (index : Nat) (t : YVal) (bp : Blueprint)
    (h : _coerce_task_blueprint index t = .ok bp) : bp.goal ≠ "" := by
  cases t with
  | map m =>
    simp only [_coerce_task_blueprint] at h
    split at h
    · cases h
    · rename_i hgoal
      cases h
      exact hgoal
  | str s =>
    simp only [_coerce_task_blueprint] at h
    split at h
    · cases h
    · rename_i hgoal
      cases h
      exact hgoal
  | null => cases h
  | bool b => cases h
  | int n => cases h
  | list l => cases h

theorem blueprintsAux_goal_ne (l : List YVal) :
    ∀ (i : Nat) (bp : Blueprint), bp ∈ (blueprintsAux i l).1 → bp.goal ≠ "" := by
  induction l with
  | nil => intro i bp hbp; cases hbp
  | cons t rest ih =>
    intro i bp hbp
    unfold blueprintsAux at hbp
    revert hbp
    cases hc : _coerce_task_blueprint i t with
    | ok bp0 =>
      intro hbp
      rcases List.mem_cons.mp hbp with rfl | hmem
      · exact coerce_blueprint_goal_ne i t bp hc
      · exact ih (i + 1) bp hmem
    | error w =>
      intro hbp
      exact ih (i + 1) bp hbp

theorem buildTasks_length (bps : List Blueprint) :
    ∀ ts, buildTasks bps = .ok ts → ts.length = bps.length := by
  induction bps with
  | nil =>
    intro ts h
    cases h
    rfl
  | cons bp rest ih =>
    intro ts h
    unfold buildTasks at h
    revert h
    cases hmk : Task.mk? bp.name bp.goal bp.task_type bp.parameters with
    | error e => intro h; cases h
    | ok t =>
      cases hrest : buildTasks rest with
      | error e => intro h; cases h
      | ok ts0 =>
        intro h
        cases h
        simp [ih ts0 hrest]

theorem buildTasks_error_msg (bps : List Blueprint)
    (hg : ∀ bp ∈ bps, bp.goal ≠ "") :
    ∀ msg, buildTasks bps = .error msg → msg = "Task name cannot be empty" := by
  induction bps with
  | nil => intro msg h; cases h
  | cons bp rest ih =>
    intro msg h
    unfold buildTasks at h
    revert h
    cases hmk : Task.mk? bp.name bp.goal bp.task_type bp.parameters with
    | error e =>
      intro h
      cases h
      unfold Task.mk? at hmk
      split at hmk
      · cases hmk
        rfl
      · split at hmk
        · exact absurd (by rename_i hge; exact hge) (hg bp (by simp))
        · cases hmk
    | ok t =>
      cases hrest : buildTasks rest with
      | error e =>
        intro h
        cases h
        exact ih (fun b hb => hg b (by simp [hb])) _ hrest
      | ok ts0 => intro h; cases h

theorem mission_mk_error_msg (name : YVal) (description : YVal)
    (metadata : List (String × YVal)) (msg : String)
    (h : Mission.mk? name description metadata = .error msg) :
    msg = "Mission name cannot be empty" := by
  unfold Mission.mk? at h
  split at h
  · cases h
    rfl
  · cases h

theorem normalizeBranch_goal_ne (raw : YVal) (source fallback_name : Option String)
    (now : String) (b : BranchOut)
    (h : normalizeBranch raw source fallback_name now = .ok b) :
    ∀ bp ∈ b.tasks, bp.goal ≠ "" := by
  cases raw with
  | map rawEntries =>
    simp only [normalizeBranch] at h
    cases h
    exact fun bp hbp => blueprintsAux_goal_ne _ 1 bp hbp
  | list items =>
    simp only [normalizeBranch] at h
    cases h
    exact fun bp hbp => blueprintsAux_goal_ne _ 1 bp hbp
  | str s =>
    simp only [normalizeBranch] at h
    cases h
    exact fun bp hbp => blueprintsAux_goal_ne _ 1 bp hbp
  | null => cases h
  | bool v => cases h
  | int n => cases h

theorem normalizeBranch_error_is_parse (raw : YVal) (source fallback_name : Option String)
    (now : String) (e : PyError)
    (h : normalizeBranch raw source fallback_name now = .error e) :
    ∃ m, e = .parseError m := by
  cases raw with
  | map rawEntries => cases h
  | list items => cases h
  | str s => cases h
  | null =>
    cases h
    exact ⟨_, rfl⟩
  | bool v =>
    cases h
    exact ⟨_, rfl⟩
  | int n =>
    cases h
    exact ⟨_, rfl⟩

theorem normalize_ok_facts (raw : YVal) (source fallback_name : Option String)
    (now : String) (nd : Normalized × Diagnostics)
    (h : _normalize raw source fallback_name now = .ok nd) :
    nd.1.tasks ≠ [] ∧ (∀ bp ∈ nd.1.tasks, bp.goal ≠ "") := by
  revert h
  unfold _normalize
  cases hb : normalizeBranch raw source fallback_name now with
  | error e => intro h; cases h
  | ok b =>
    dsimp only
    by_cases hne : b.tasks.isEmpty = true
    · rw [if_pos hne]
      intro h
      cases h
    · rw [if_neg hne]
      intro h
      cases h
      refine ⟨by simpa using hne, ?_⟩
      exact normalizeBranch_goal_ne raw source fallback_name now b hb

theorem normalize_error_is_parse (raw : YVal) (source fallback_name : Option String)
    (now : String) (e : PyError)
    (h : _normalize raw source fallback_name now = .error e) :
    ∃ m, e = .parseError m := by
  revert h
  unfold _normalize
  cases hb : normalizeBranch raw source fallback_name now with
  | error e0 =>
    intro h
    cases h
    exact normalizeBranch_error_is_parse raw source fallback_name now _ hb
  | ok b =>
    dsimp only
    by_cases hne : b.tasks.isEmpty = true
    · rw [if_pos hne]
      intro h
      cases h
      exact ⟨_, rfl⟩
    · rw [if_neg hne]
      intro h
      cases h

theorem build_mission_error_msg (normalized : Normalized) (diagnostics : Diagnostics)
    (hg : ∀ bp ∈ normalized.tasks, bp.goal ≠ "") (msg : String)
    (h : _build_mission normalized diagnostics = .error msg) :
    msg = "Task name cannot be empty" ∨ msg = "Mission name cannot be empty" := by
  unfold _build_mission at h
  dsimp only at h
  split at h <;> (try split at h) <;> cases h <;>
    first
    | (left
       exact buildTasks_error_msg _ hg _ (by assumption))
    | (right
       exact mission_mk_error_msg _ _ _ _ (by assumption))

theorem build_mission_ok_tasks (normalized : Normalized) (diagnostics : Diagnostics)
    (mission : Mission) (h : _build_mission normalized diagnostics = .ok mission) :
    mission.tasks.length = normalized.tasks.length := by
  unfold _build_mission at h
  dsimp only at h
  split at h <;> (try split at h) <;> cases h <;>
    exact buildTasks_length _ _ (by assumption)

/-- C2 counterexample: a mapping with one well-goaled task whose
explicit `name` is the empty string.  The blueprint survives (its
goal is non-empty), so no ParseError is raised; instead
`Task.__post_init__` raises `ValueError` — the parse neither
produces a mission nor raises a ParseError, contradicting the claim
as stated. -/
theorem C2_counterexample :
    parse_content "x"
        (.ok (.map [("tasks", .list [.map [("name", .str ""), ("goal", .str "g")]])]))
        none none "T"
      = .error (.valueError "Task name cannot be empty") ∧
    (∀ msg, (PyError.valueError "Task name cannot be empty") ≠ .parseError msg) := by
  refine ⟨rfl, ?_⟩
  intro msg h
  cases h

/-- C2 (amended): for every input, `parse_content` either returns a
mission with at least one task, or raises a ParseError
(empty/whitespace content, YAML syntax error, null root, unsupported
root shape such as a number, or zero surviving blueprints), or
raises the dataclass `ValueError` for an empty task or mission name
(a falsy explicit `name` in a surviving task mapping, or a falsy
pre-existing `meta.project_name`); it never returns a mission with
an empty task list. -/
theorem C2_parse_totality :
    (∀ (content : String) (loaded : Except String YVal)
        (source fallback_name : Option String) (now : String),
      (match parse_content content loaded source fallback_name now with
       | .ok mission => mission.tasks.length ≥ 1
       | .error (.parseError _) => True
       | .error (.valueError msg) =>
         msg = "Task name cannot be empty" ∨ msg = "Mission name cannot be empty")) ∧
    (∀ (content : String) (loaded : Except String YVal)
        (source fallback_name : Option String) (now : String),
      pyStrip content = "" →
      parse_content content loaded source fallback_name now
        = .error (.parseError "Empty YAML content.")) ∧
    (∀ (source fallback_name : Option String) (now : String),
      _normalize .null source fallback_name now
        = .error (.parseError "Empty YAML content.")) ∧
    (∀ (n : Int) (source fallback_name : Option String) (now : String),
      _normalize (.int n) source fallback_name now
        = .error (.parseError "Unsupported YAML root type: int.")) ∧
    (∀ (raw : YVal) (source fallback_name : Option String) (now : String)
        (nd : Normalized × Diagnostics),
      _normalize raw source fallback_name now = .ok nd → nd.1.tasks.length ≥ 1) := by
  refine ⟨?_, ?_, ?_, ?_, ?_⟩
  · intro content loaded source fallback_name now
    unfold parse_content
    by_cases hc : pyStrip content = ""
    · rw [if_pos hc]
      trivial
    · rw [if_neg hc]
      cases loaded with
      | error e => trivial
      | ok data =>
        dsimp only
        cases hn : _normalize data source fallback_name now with
        | error e =>
          obtain ⟨m, rfl⟩ := normalize_error_is_parse _ _ _ _ _ hn
          trivial
        | ok nd =>
          obtain ⟨hne, hg⟩ := normalize_ok_facts _ _ _ _ _ hn
          dsimp only
          cases hbm : _build_mission nd.1 nd.2 with
          | error msg =>
            exact build_mission_error_msg _ _ hg msg hbm
          | ok mission =>
            dsimp only
            rw [build_mission_ok_tasks _ _ _ hbm]
            cases hts : nd.1.tasks with
            | nil => exact absurd hts hne
            | cons a l => simp
  · intro content loaded source fallback_name now h
    unfold parse_content
    rw [if_pos h]
  · intro source fallback_name now
    rfl
  · intro n source fallback_name now
    rfl
  · intro raw source fallback_name now nd h
    have := (normalize_ok_facts _ _ _ _ _ h).1
    cases hts : nd.1.tasks with
    | nil => exact absurd hts this
    | cons a l => simp [hts]

/-- C2 witness: whitespace-only content raises the empty-content
ParseError; a numeric root raises the unsupported-root ParseError;
and a bare-string document normalizes to at least one task. -/
theorem C2_witness :
    parse_content "   " (.ok .null) none none "T"
      = .error (.parseError "Empty YAML content.") ∧
    _normalize (.int 7) none none "T"
      = .error (.parseError "Unsupported YAML root type: int.") ∧
    (∃ nd, _normalize (.str "Audit the repository") none none "T" = .ok nd ∧
      nd.1.tasks.length ≥ 1) := by
  refine ⟨(C2_parse_totality).2.1 "   " (.ok .null) none none "T" rfl,
    (C2_parse_totality).2.2.2.1 7 none none "T", ?_⟩
  exact ⟨_, rfl, (C2_parse_totality).2.2.2.2 (.str "Audit the repository") none none "T" _ rfl⟩

/-- C7 counterexample: a mapping whose `tasks` key is present (an
explicit empty list) together with a root-level `mission` entry.
The claim says a present `tasks` list is the sole candidate source,
but the code falls through to the implicit harvest and takes the
candidate from `root.mission`. -/
theorem C7_counterexample :
    yHasKey [("tasks", .list []), ("mission", .str "Scan configs")] "tasks" = true ∧
    explicitOrImplicitCandidates [("tasks", .list []), ("mission", .str "Scan configs")]
      = ([.str "Scan configs"], [("root.mission", 1)]) ∧
    (match _normalize (.map [("tasks", .list []), ("mission", .str "Scan configs")])
        none none "T" with
     | .ok nd => nd.2.fallback_chain
     | .error _ => []) = [("root.mission", 1)] :=
  ⟨rfl, rfl, rfl⟩

/-- C7 (amended): an explicit `tasks` entry is the sole source of
task candidates when its coerced container is non-empty; an absent,
null or empty `tasks` entry falls through to the implicit harvest,
which visits exactly the spec's sources in order — `meta.task`,
`meta.tasks`, `meta.mission`, `meta.mission_prompt`, `meta.goal`,
`meta.prompt`, then root-level `mission`, `task`, `prompt`,
`prompts`, `instructions`, `instruction`, `steps`, with
`description` only if nothing was contributed — each non-empty
source contributing all its items and one `(source-name, count)`
fallback-chain entry in the order tried. -/
theorem C7_candidate_harvesting :
    (∀ raw : List (String × YVal),
      _coerce_task_container (yGet raw "tasks") ≠ [] →
      explicitOrImplicitCandidates raw
        = (_coerce_task_container (yGet raw "tasks"),
           [("tasks", (_coerce_task_container (yGet raw "tasks")).length)])) ∧
    (∀ raw : List (String × YVal),
      _coerce_task_container (yGet raw "tasks") = [] →
      explicitOrImplicitCandidates raw = _collect_implicit_tasks raw) ∧
    (∀ raw : List (String × YVal), _collect_implicit_tasks raw = specHarvest raw) := by
  refine ⟨?_, ?_, ?_⟩
  · intro raw h
    unfold explicitOrImplicitCandidates
    rw [if_pos (by simpa using h)]
  · intro raw h
    unfold explicitOrImplicitCandidates
    rw [h]
    rfl
  · intro raw
    unfold _collect_implicit_tasks specHarvest specImplicitSources
    cases hm : yGet raw "meta" with
    | map meta => rfl
    | null => rfl
    | bool b => rfl
    | int n => rfl
    | str s => rfl
    | list l => rfl

/-- C7 witness: a scalar `tasks` entry is the sole source; the
counterexample document falls through to the implicit harvest; and
the implicit harvest coincides with the spec-ordered harvest there. -/
theorem C7_witness :
    explicitOrImplicitCandidates [("tasks", .str "do it"), ("mission", .str "ignored")]
      = ([.str "do it"], [("tasks", 1)]) ∧
    explicitOrImplicitCandidates [("tasks", .list []), ("mission", .str "Scan configs")]
      = _collect_implicit_tasks [("tasks", .list []), ("mission", .str "Scan configs")] ∧
    _collect_implicit_tasks [("tasks", .list []), ("mission", .str "Scan configs")]
      = specHarvest [("tasks", .list []), ("mission", .str "Scan configs")] := by
  refine ⟨?_, ?_, ?_⟩
  · exact (C7_candidate_harvesting).1 [("tasks", .str "do it"), ("mission", .str "ignored")]
      (fun h => List.cons_ne_nil _ _ h)
  · exact (C7_candidate_harvesting).2.1
      [("tasks", .list []), ("mission", .str "Scan configs")] rfl
  · exact (C7_candidate_harvesting).2.2
      [("tasks", .list []), ("mission", .str "Scan configs")]

/-! ## C5: `task_apply_writes` (task_logic_handler.py:782-1361)

The file system is an association list from resolved POSIX path
strings to file contents.  `Path.resolve()` is modelled as joining
relative paths onto a base directory (the process directory `cwd`
for the report write, the workspace for plan targets); dot-segment
collapsing and symlinks are not modelled, and the paths used in the
theorems below contain no dot segments.  The plan-acquisition
prologue (task_logic_handler.py:855-948: inline YAML strings and
`plan_path` file loading) is outside the model: the embedding covers
calls whose `params` carry the plan as an inline mapping, for which
the source sets `plan_data` to that mapping and `plan_origin` to
`"inline"` (or to the resolved `plan_path` hint when one is given).
`context_bridge` diagnostics and `register_output` do not affect the
file system, the summary counters or the returned string and are
omitted; encodings select byte codecs and are dropped because
contents are abstract strings; timestamps are the ambient inputs
`started_at` and `duration_str`; the workspace-existence check at
line 806 is an ambient precondition (the workspace directory
exists). -/

/-- POSIX `Path.is_absolute()`. -/
def isAbsPath (p : String) : Bool :=
  match p.data with
  | '/' :: _ => true
  | _ => false

/-- `Path(p)` resolved against a base directory. -/
def absResolve (base p : String) : String :=
  if isAbsPath p then p else base ++ "/" ++ p

/-- `target_path.relative_to(workspace_path)` plus `as_posix()`, with
the `str(target_path)` fallback (lines 1114-1118). -/
def displayPath (ws target : String) : String :=
  if target = ws then "."
  else if List.isPrefixOf (ws ++ "/").data target.data then
    ⟨target.data.drop (ws.data.length + 1)⟩
  else target

/-- `str(GuardrailError)` raised by `check_path` (guardrail.py:55-59). -/
def violationMsg (v : GuardrailViolation) : String :=
  "Operation \x27" ++ v.operation ++ "\x27 on sanctuary path \x27" ++ v.path
    ++ "\x27 is forbidden. Protected pattern: " ++ v.pattern

/-- `_to_bool` (lines 845-853): bools pass through, strings
strip/lower and compare against the truthy words, ints use Python
truthiness (floats do not occur in the embedding), everything else
is false. -/
def _to_bool : YVal → Bool
  | .bool b => b
  | .str s =>
    let lowered := pyLower (pyStrip s)
    lowered == "1" || lowered == "true" || lowered == "yes" || lowered == "on"
  | .int n => n != 0
  | _ => false

/-- Python `"\n".join`. -/
def joinNl : List String → String
  | [] => ""
  | [s] => s
  | s :: rest => s ++ "\n" ++ joinNl rest

/-- `_stringify_content` (lines 838-843). -/
def _stringify_content : YVal → Option String
  | .null => none
  | .list items => some (joinNl (items.map pyStr))
  | v => some (pyStr v)

/-- `_pick_string(*candidates)` (lines 808-813): the first candidate
resolving to a string with non-empty strip wins, stripped. -/
def _pick_string (vars : List (String × String)) : List YVal → Option String
  | [] => none
  | c :: rest =>
    match _resolve_placeholders c vars with
    | .str s => if pyStrip s = "" then _pick_string vars rest else some (pyStrip s)
    | _ => _pick_string vars rest

/-- A `variables.get(KEY)` lookup used as a `_pick_string` candidate:
`None` when the key is absent. -/
def varY (vars : List (String × String)) (k : String) : YVal :=
  match strGet? vars k with
  | some s => .str s
  | none => .null

/-- `_resolve_workspace_path` (lines 815-822): resolve placeholders,
reject falsy results, join relative paths onto the workspace; a
truthy non-string result makes `Path()` raise `TypeError`. -/
def _resolve_workspace_path (ws : String) (vars : List (String × String))
    (candidate : YVal) : Except String String :=
  let resolved := _resolve_placeholders candidate vars
  if truthy resolved then
    match resolved with
    | .str s => .ok (absResolve ws s)
    | v =>
      .error ("argument should be a str or an os.PathLike object where __fspath__ returns a str, not <class \x27"
        ++ typeName v ++ "\x27>")
  else .error "Empty path candidate"

/-- Errors raised inside `_read_text`: `open` on a missing file
raises `FileNotFoundError`, which the `insert_before` /
`insert_after` / `replace_block` actions catch specifically
(line 1181). -/
inductive RErr where
  | notFound (m : String)
  | violation (m : String)
deriving Repr, DecidableEq

def RErr.msg : RErr → String
  | .notFound m => m
  | .violation m => m

/-- `_read_text` (lines 824-827): guardrail check, then read. -/
def _read_text (patterns : List String) (cwd : String)
    (fs : List (String × String)) (path : String) : Except RErr String :=
  match check_path patterns path "read" with
  | .error v => .error (.violation (violationMsg v))
  | .ok _ =>
    match strGet? fs (absResolve cwd path) with
    | some text => .ok text
    | none =>
      .error (.notFound ("[Errno 2] No such file or directory: \x27" ++ path ++ "\x27"))

/-- `_safe_write_text` (lines 830-836): guardrail check, then write
or append; parent directories are always created, so writes never
fail for a missing directory. -/
def _safe_write_text (patterns : List String) (cwd : String)
    (fs : List (String × String)) (path content : String) (append : Bool) :
    Except String (List (String × String)) :=
  match check_path patterns path (if append then "append" else "write") with
  | .error v => .error (violationMsg v)
  | .ok _ =>
    if append then
      .ok (strSet fs (absResolve cwd path)
        ((strGet? fs (absResolve cwd path)).getD "" ++ content))
    else
      .ok (strSet fs (absResolve cwd path) content)

/-- One `result_entry` of the changes loop; the `index` field is the
position of the entry and is not repeated. -/
structure ChangeEntry where
  status : String
  file : Option String
  action : Option String
  message : String
deriving Repr, DecidableEq

/-- Report-line rendering of an entry field: the keys are always
present (initialised to `None`), so the `dict.get` default is never
used and a missing value renders as `"None"`. -/
def optStr : Option String → String
  | none => "None"
  | some s => s

/-- The loop state threaded through the changes loop. -/
structure LoopState where
  fs : List (String × String)
  entries : List ChangeEntry
  applied : Nat
  dry_run_changes : Nat
  errors : List String

/-- Error outcome of one change: an error entry plus an aggregate
error message. -/
def LoopState.fail (st : LoopState) (f a : Option String) (msg err : String) :
    LoopState :=
  { st with entries := st.entries ++ [⟨"error", f, a, msg⟩],
            errors := st.errors ++ [err] }

/-- Dry-run outcome of one change. -/
def LoopState.skip (st : LoopState) (f a : Option String) (msg : String) :
    LoopState :=
  { st with entries := st.entries ++ [⟨"dry_run", f, a, msg⟩],
            dry_run_changes := st.dry_run_changes + 1 }

/-- Applied outcome of one change. -/
def LoopState.wrote (st : LoopState) (fs2 : List (String × String))
    (f a : Option String) (msg : String) : LoopState :=
  { st with fs := fs2, entries := st.entries ++ [⟨"applied", f, a, msg⟩],
            applied := st.applied + 1 }

/-- The action dispatch of one change (lines 1155-1254), once the
target is resolved and any `source` text folded into `content?`. -/
def applyAction (patterns : List String) (cwd ws : String)
    (vars : List (String × String)) (dry_run : Bool) (st : LoopState)
    (c : List (String × YVal)) (action display target : String)
    (content? : Option String) : LoopState :=
  if action = "overwrite" then
    match content? with
    | none =>
      st.fail (some display) (some action) "Missing content for overwrite."
        (display ++ ": Missing content for overwrite.")
    | some txt =>
      if dry_run then
        st.skip (some display) (some action) "Dry-run: overwrite skipped."
      else
        match _safe_write_text patterns cwd st.fs target txt false with
        | .error e => st.fail (some display) (some action) e (display ++ ": " ++ e)
        | .ok fs2 => st.wrote fs2 (some display) (some action) "Overwrite completed."
  else if action = "append" then
    match content? with
    | none =>
      st.fail (some display) (some action) "Missing content for append."
        (display ++ ": Missing content for append.")
    | some txt =>
      if dry_run then
        st.skip (some display) (some action) "Dry-run: append skipped."
      else
        match _safe_write_text patterns cwd st.fs target txt true with
        | .error e => st.fail (some display) (some action) e (display ++ ": " ++ e)
        | .ok fs2 => st.wrote fs2 (some display) (some action) "Append completed."
  else if action = "insert_before" || action = "insert_after" || action = "replace_block" then
    match _read_text patterns cwd st.fs target with
    | .error (.notFound _) =>
      st.fail (some display) (some action) "Target file does not exist."
        (display ++ ": Target file does not exist.")
    | .error (.violation e) =>
      st.fail (some display) (some action) e (display ++ ": " ++ e)
    | .ok existing =>
      let selectors := match yGet c "selectors" with | .map s => s | _ => []
      let marker_value := _pick_string vars
        [(if action = "insert_before" then yGet selectors "before" else .null),
         (if action = "insert_after" then yGet selectors "after" else .null),
         yGet selectors "marker", yGet selectors "target"]
      let start_marker := _pick_string vars [yGet selectors "start"]
      let end_marker := _pick_string vars [yGet selectors "end"]
      if action = "replace_block" then
        match content? with
        | none =>
          st.fail (some display) (some action) "Missing content for replace_block."
            (display ++ ": Missing content for replace_block.")
        | some txt =>
          match start_marker, end_marker with
          | some sm, some em =>
            match pyFind existing sm with
            | none =>
              st.fail (some display) (some action)
                ("Start marker \x27" ++ sm ++ "\x27 not found.")
                (display ++ ": Start marker \x27" ++ sm ++ "\x27 not found.")
            | some si =>
              match pyFindFrom existing em (si + sm.data.length) with
              | none =>
                st.fail (some display) (some action)
                  ("End marker \x27" ++ em ++ "\x27 not found.")
                  (display ++ ": End marker \x27" ++ em ++ "\x27 not found.")
              | some ei =>
                let new_text : String :=
                  ⟨existing.data.take (si + sm.data.length) ++ txt.data
                    ++ existing.data.drop ei⟩
                if dry_run then
                  st.skip (some display) (some action) "Dry-run: replace_block skipped."
                else
                  match _safe_write_text patterns cwd st.fs target new_text false with
                  | .error e => st.fail (some display) (some action) e (display ++ ": " ++ e)
                  | .ok fs2 =>
                    st.wrote fs2 (some display) (some action) "replace_block completed."
          | _, _ =>
            match marker_value with
            | some m =>
              if pyContains existing m then
                let new_text := pyReplaceFirst existing m txt
                if dry_run then
                  st.skip (some display) (some action) "Dry-run: replace_block skipped."
                else
                  match _safe_write_text patterns cwd st.fs target new_text false with
                  | .error e => st.fail (some display) (some action) e (display ++ ": " ++ e)
                  | .ok fs2 =>
                    st.wrote fs2 (some display) (some action) "replace_block completed."
              else
                st.fail (some display) (some action)
                  ("Marker \x27" ++ m ++ "\x27 not found.")
                  (display ++ ": Marker \x27" ++ m ++ "\x27 not found.")
            | none =>
              st.fail (some display) (some action)
                "Selectors must define start/end or marker for replace_block."
                (display ++ ": Selectors must define start/end or marker for replace_block.")
      else
        match content? with
        | none =>
          st.fail (some display) (some action) "Missing content for insertion."
            (display ++ ": Missing content for insertion.")
        | some txt =>
          match marker_value with
          | none =>
            st.fail (some display) (some action)
              "Selectors must provide a marker for insertion."
              (display ++ ": Selectors must provide a marker for insertion.")
          | some m =>
            match pyFind existing m with
            | none =>
              st.fail (some display) (some action)
                ("Marker \x27" ++ m ++ "\x27 not found.")
                (display ++ ": Marker \x27" ++ m ++ "\x27 not found.")
            | some mi =>
              let pos := if action = "insert_before" then mi else mi + m.data.length
              let new_text : String :=
                ⟨existing.data.take pos ++ txt.data ++ existing.data.drop pos⟩
              if dry_run then
                st.skip (some display) (some action)
                  ("Dry-run: " ++ action ++ " skipped.")
              else
                match _safe_write_text patterns cwd st.fs target new_text false with
                | .error e => st.fail (some display) (some action) e (display ++ ": " ++ e)
                | .ok fs2 =>
                  st.wrote fs2 (some display) (some action) (action ++ " completed.")
  else
    st.fail (some display) (some action)
      ("Unsupported action \x27" ++ action ++ "\x27.")
      (display ++ ": Unsupported action \x27" ++ action ++ "\x27.")

/-- One iteration of the changes loop (lines 1039-1146).  The
`encoding` pick is side-effect free and not tracked because contents
are abstract strings. -/
def processChange (patterns : List String) (cwd ws : String)
    (vars : List (String × String)) (dry_run : Bool)
    (st : LoopState) (index : Nat) (change : YVal) : LoopState :=
  match change with
  | .map c =>
    let action_value := pyOr (yGet c "action") (yGet c "operation")
    let action :=
      if truthy action_value then pyLower (pyStrip (pyStr action_value)) else ""
    if action = "" then
      st.fail none none "Missing action." ("#" ++ toString index ++ ": missing action")
    else
      let file_value := pyOr (yGet c "file") (pyOr (yGet c "path") (yGet c "target"))
      if truthy file_value then
        match _resolve_workspace_path ws vars file_value with
        | .error e =>
          st.fail none none e ("#" ++ toString index ++ ": invalid target path - " ++ e)
        | .ok target =>
          let display := displayPath ws target
          let content0 := _stringify_content (yGet c "content")
          let source_ref := pyOr (yGet c "source") (yGet c "content_from")
          if truthy source_ref then
            let srcRes : Except String String :=
              match _resolve_workspace_path ws vars source_ref with
              | .error e => .error e
              | .ok sp =>
                match _read_text patterns cwd st.fs sp with
                | .error e => .error e.msg
                | .ok t => .ok t
            match srcRes with
            | .error e =>
              st.fail (some display) (some action) ("Source read failed: " ++ e)
                (display ++ ": source read failed (" ++ e ++ ")")
            | .ok srcText =>
              applyAction patterns cwd ws vars dry_run st c action display target
                (match content0 with | none => some srcText | some t => some t)
          else
            applyAction patterns cwd ws vars dry_run st c action display target content0
      else
        st.fail none none "Missing file path."
          ("#" ++ toString index ++ ": missing file path")
  | _ =>
    st.fail none none "Change entry must be a mapping."
      ("#" ++ toString index ++ ": change entry is not a mapping")

/-- The changes loop, `for index, change in enumerate(changes, start=1)`. -/
def processChanges (patterns : List String) (cwd ws : String)
    (vars : List (String × String)) (dry_run : Bool) :
    LoopState → Nat → List YVal → LoopState
  | st, _, [] => st
  | st, i, c :: rest =>
    processChanges patterns cwd ws vars dry_run
      (processChange patterns cwd ws vars dry_run st i c) (i + 1) rest

/-- The report destination pick (lines 996-1010). -/
def destinationOf (vars : List (String × String)) (params : List (String × YVal))
    (ctx_output declared_outputs : YVal) : Option String :=
  let output_config : List (String × YVal) :=
    match ctx_output with | .map m => m | _ => []
  let primary := _pick_string vars
    [yGet params "report_path", yGet params "destination",
     (match yGet params "output" with | .map m => yGet m "destination" | _ => .null),
     yGet output_config "destination"]
  match primary with
  | some d => some d
  | none =>
    match (if truthy declared_outputs then declared_outputs else .list []) with
    | .map m => _pick_string vars [yGet m "destination"]
    | .list items =>
      items.foldl (fun acc entry =>
        match acc with
        | some d => some d
        | none =>
          match entry with
          | .map e => _pick_string vars [yGet e "destination"]
          | .str s => _pick_string vars [.str s]
          | _ => none) none
    | _ => none

/-- `report_path` (lines 1012-1017): a bare relative file name is
redirected into `reports/`; everything else is kept as given
(`pathlib` normalisation of repeated separators is not modelled). -/
def reportPathOf (destination : Option String) : String :=
  match destination with
  | none => "reports/apply_writes_report.md"
  | some d =>
    if isAbsPath d = false && pyContains d "/" = false then "reports/" ++ d else d

/-- One `## Changes` report line (lines 1296-1300). -/
def reportLine (e : ChangeEntry) : String :=
  "- [" ++ pyUpper e.status ++ "] " ++ optStr e.action ++ " :: "
    ++ optStr e.file ++ " - " ++ e.message

/-- The report document (lines 1281-1307). -/
def reportContent (mission_name task_name plan_origin guardrail_policy : String)
    (dry_run : Bool) (started_at duration_str : String)
    (entries : List ChangeEntry) (errors : List String) : String :=
  joinNl
    (["# Apply Writes Execution Log", "",
      "- Mission: " ++ mission_name,
      "- Task: " ++ task_name,
      "- Plan origin: " ++ (if plan_origin = "" then "unknown" else plan_origin),
      "- Guardrail policy: " ++ guardrail_policy,
      "- Dry run: " ++ (if dry_run then "yes" else "no"),
      "- Started at: " ++ started_at,
      "- Duration (s): " ++ duration_str,
      "", "## Changes"]
     ++ (if entries.isEmpty then ["- No changes declared in plan."]
         else entries.map reportLine)
     ++ (if errors.isEmpty then []
         else "" :: "## Errors" :: errors.map (fun m => "- " ++ m))
     ++ [""])

/-- The summary dictionary (lines 1322-1330); `duration_seconds` is
ambient timing and not tracked. -/
structure AWSummary where
  plan_origin : String
  report_path : String
  dry_run : Bool
  applied : Nat
  dry_run_changes : Nat
  errors : List String
deriving Repr, DecidableEq

/-- Observable outcome of `task_apply_writes`: the final file
system, the returned string, and the summary when the happy path is
reached (`none` for the early `[ERROR]` returns). -/
structure AWResult where
  fs : List (String × String)
  message : String
  summary : Option AWSummary

/-- `task_apply_writes(params, context)` for a call whose plan is
the inline mapping `plan` and whose context supplies a resolved
`workspace_path` (`ws`, assumed to exist); `patterns` is the
guardrail sanctuary configuration and `cwd` the process directory
against which the (possibly relative) report path is opened. -/
def task_apply_writes (patterns : List String) (cwd : String)
    (fs : List (String × String)) (plan params : List (String × YVal))
    (vars : List (String × String)) (ws : String)
    (ctx_output declared_outputs : YVal)
    (mission_name task_name started_at duration_str : String) : AWResult :=
  let plan_path_hint :=
    _pick_string vars [yGet params "plan_path", varY vars "WRITE_PLAN"]
  let plan_origin : String :=
    match plan_path_hint with
    | some h =>
      match _resolve_workspace_path ws vars (.str h) with
      | .ok p => p
      | .error _ => "inline"
    | none => "inline"
  match pyOr (yGet plan "changes") (.list []) with
  | .list changes =>
    let dry_run := _to_bool (yGet params "dry_run") || _to_bool (yGet plan "dry_run")
    let guardrail_policy := (_pick_string vars
      [yGet params "guardrail_policy", yGet plan "guardrail_policy",
       varY vars "CHANGE_POLICY"]).getD "guarded"
    let report_path := reportPathOf (destinationOf vars params ctx_output declared_outputs)
    let st := processChanges patterns cwd ws vars dry_run ⟨fs, [], 0, 0, []⟩ 1 changes
    let content := reportContent mission_name task_name plan_origin guardrail_policy
      dry_run started_at duration_str st.entries st.errors
    let writeRes := _safe_write_text patterns cwd st.fs report_path content false
    let fs2 := match writeRes with | .ok f => f | .error _ => st.fs
    let errors2 := match writeRes with
      | .ok _ => st.errors
      | .error e => st.errors ++ ["Failed to write report: " ++ e]
    let statusTag := if errors2.isEmpty = false then "[WARN]"
      else if dry_run then "[DRY]" else "[OK]"
    { fs := fs2,
      message := statusTag ++ " Plan applique : " ++ toString st.applied
        ++ " change(s), " ++ toString st.dry_run_changes
        ++ " en simulation, rapport " ++ report_path,
      summary := some ⟨plan_origin, report_path, dry_run, st.applied,
        st.dry_run_changes, errors2⟩ }
  | _ =>
    { fs := fs,
      message := "[ERROR] task_apply_writes: plan.changes must be a list.",
      summary := none }

/-- Under `dry_run` no action branch ever calls `_safe_write_text`,
so the dispatch leaves the file system untouched. -/
theorem applyAction_dry_fs (patterns : List String) (cwd ws : String)
    (vars : List (String × String)) (st : LoopState)
    (c : List (String × YVal)) (action display target : String)
    (content? : Option String) :
    (applyAction patterns cwd ws vars true st c action display target content?).fs
      = st.fs := by
  unfold applyAction
  dsimp only
  repeat' split
  all_goals first | rfl | exact absurd rfl (by assumption)

/-- Under `dry_run` one loop iteration leaves the file system
untouched (reads do not modify it). -/
theorem processChange_dry_fs (patterns : List String) (cwd ws : String)
    (vars : List (String × String)) (st : LoopState) (i : Nat) (change : YVal) :
    (processChange patterns cwd ws vars true st i change).fs = st.fs := by
  unfold processChange
  cases change with
  | map c =>
    dsimp only
    repeat' split
    all_goals first
      | rfl
      | exact applyAction_dry_fs patterns cwd ws vars st c _ _ _ _
  | null => rfl
  | bool b => rfl
  | int n => rfl
  | str s => rfl
  | list l => rfl

/-- Under `dry_run` the whole changes loop leaves the file system
untouched. -/
theorem processChanges_dry_fs (patterns : List String) (cwd ws : String)
    (vars : List (String × String)) :
    ∀ (changes : List YVal) (st : LoopState) (i : Nat),
      (processChanges patterns cwd ws vars true st i changes).fs = st.fs := by
  intro changes
  induction changes with
  | nil => intro st i; rfl
  | cons c rest ih =>
    intro st i
    unfold processChanges
    rw [ih]
    exact processChange_dry_fs patterns cwd ws vars st i c

/-- A successful `_safe_write_text` touches only its own resolved
key. -/
theorem safe_write_text_frame (patterns : List String) (cwd : String)
    (fs fs2 : List (String × String)) (path content : String) (append : Bool)
    (p : String) (hp : p ≠ absResolve cwd path)
    (h : _safe_write_text patterns cwd fs path content append = .ok fs2) :
    strGet? fs2 p = strGet? fs p := by
  unfold _safe_write_text at h
  split at h
  · cases h
  · split at h <;> (cases h; exact strGet?_strSet_ne _ _ _ _ hp)

/-- A well-formed `overwrite` change processed under `dry_run` is
recorded as a skipped entry: nothing is written and only the
`dry_run_changes` counter moves. -/
theorem processChange_overwrite_dry (patterns : List String) (cwd ws : String)
    (vars : List (String × String)) (st : LoopState) (i : Nat)
    (c : List (String × YVal)) (target txt : String)
    (h1 : truthy (pyOr (yGet c "action") (yGet c "operation")) = true)
    (h2 : pyLower (pyStrip (pyStr (pyOr (yGet c "action") (yGet c "operation")))) = "overwrite")
    (h3 : truthy (pyOr (yGet c "file") (pyOr (yGet c "path") (yGet c "target"))) = true)
    (h4 : _resolve_workspace_path ws vars
      (pyOr (yGet c "file") (pyOr (yGet c "path") (yGet c "target"))) = .ok target)
    (h5 : truthy (pyOr (yGet c "source") (yGet c "content_from")) = false)
    (h6 : _stringify_content (yGet c "content") = some txt) :
    processChange patterns cwd ws vars true st i (.map c)
      = st.skip (some (displayPath ws target)) (some "overwrite")
          "Dry-run: overwrite skipped." := by
  unfold processChange
  dsimp only
  rw [if_pos h1, h2, if_neg (show ¬ (("overwrite" : String) = "") by decide),
    if_pos h3, h4]
  dsimp only
  rw [if_neg (show ¬ (truthy (pyOr (yGet c "source") (yGet c "content_from")) = true) by
    rw [h5]; exact Bool.false_ne_true), h6]
  rfl

/-- C5 (amended): with `dry_run` enabled, `task_apply_writes`
applies no change from the plan — the changes loop never writes, so
every path other than the resolved report destination keeps its
bytes, and a single well-formed `overwrite` change is counted as
`applied = 0` and `dry_run_changes = 1` in the summary.  The
execution report itself, however, is written unconditionally
(line 1309), so a plan change whose target resolves to the report
path sees its bytes change even under `dry_run` (see the
counterexample). -/
theorem C5_dry_run_effects :
    (∀ (patterns : List String) (cwd : String) (fs : List (String × String))
       (plan params : List (String × YVal)) (vars : List (String × String))
       (ws : String) (ctx_output declared_outputs : YVal)
       (mname tname ts dur p : String),
      (_to_bool (yGet params "dry_run") || _to_bool (yGet plan "dry_run")) = true →
      p ≠ absResolve cwd
        (reportPathOf (destinationOf vars params ctx_output declared_outputs)) →
      strGet? (task_apply_writes patterns cwd fs plan params vars ws ctx_output
        declared_outputs mname tname ts dur).fs p = strGet? fs p) ∧
    (∀ (patterns : List String) (cwd : String) (fs : List (String × String))
       (plan params : List (String × YVal)) (vars : List (String × String))
       (ws : String) (ctx_output declared_outputs : YVal)
       (mname tname ts dur : String) (c : List (String × YVal)) (target txt : String),
      yGet plan "changes" = .list [.map c] →
      truthy (pyOr (yGet c "action") (yGet c "operation")) = true →
      pyLower (pyStrip (pyStr (pyOr (yGet c "action") (yGet c "operation")))) = "overwrite" →
      truthy (pyOr (yGet c "file") (pyOr (yGet c "path") (yGet c "target"))) = true →
      _resolve_workspace_path ws vars
        (pyOr (yGet c "file") (pyOr (yGet c "path") (yGet c "target"))) = .ok target →
      truthy (pyOr (yGet c "source") (yGet c "content_from")) = false →
      _stringify_content (yGet c "content") = some txt →
      (_to_bool (yGet params "dry_run") || _to_bool (yGet plan "dry_run")) = true →
      ∃ s, (task_apply_writes patterns cwd fs plan params vars ws ctx_output
        declared_outputs mname tname ts dur).summary = some s ∧
        s.applied = 0 ∧ s.dry_run_changes = 1 ∧ s.dry_run = true) := by
  refine ⟨?_, ?_⟩
  · intro patterns cwd fs plan params vars ws ctx_output declared_outputs
      mname tname ts dur p hdry hp
    unfold task_apply_writes
    dsimp only
    split
    · rw [hdry, processChanges_dry_fs]
      dsimp only
      split
      · rename_i f heqw
        exact safe_write_text_frame patterns cwd fs f _ _ false p hp heqw
      · rfl
    · rfl
  · intro patterns cwd fs plan params vars ws ctx_output declared_outputs
      mname tname ts dur c target txt hc h1 h2 h3 h4 h5 h6 hdry
    unfold task_apply_writes
    dsimp only
    rw [hc,
      show pyOr (YVal.list [YVal.map c]) (YVal.list []) = YVal.list [YVal.map c] from rfl]
    dsimp only
    rw [hdry,
      show processChanges patterns cwd ws vars true ⟨fs, [], 0, 0, []⟩ 1 [YVal.map c]
        = processChange patterns cwd ws vars true ⟨fs, [], 0, 0, []⟩ 1 (YVal.map c) from rfl,
      processChange_overwrite_dry patterns cwd ws vars ⟨fs, [], 0, 0, []⟩ 1 c target txt
        h1 h2 h3 h4 h5 h6]
    exact ⟨_, rfl, rfl, rfl, rfl⟩

/-- Counterexample scenario for C5: a dry-run plan whose single
`overwrite` change targets the default report destination. -/
def c5Plan : List (String × YVal) :=
  [("changes", .list [.map
    [("action", .str "overwrite"),
     ("file", .str "reports/apply_writes_report.md"),
     ("content", .str "NEW")]])]

def c5Params : List (String × YVal) := [("dry_run", .bool true)]

def c5Fs : List (String × String) :=
  [("/ws/reports/apply_writes_report.md", "OLD")]

def c5Out : AWResult :=
  task_apply_writes [] "/ws" c5Fs c5Plan c5Params [] "/ws" .null .null
    "M" "T" "2026-02-03 04:05:06" "0.00"

/-- C5 counterexample: under `dry_run` the bytes of the plan target
`reports/apply_writes_report.md` — an explicit change target,
resolving to `/ws/reports/apply_writes_report.md` — are NOT left
unchanged: the unconditional report write lands on the same file,
although the summary duly reports `applied = 0` and
`dry_run_changes = 1`. -/
theorem C5_counterexample :
    _resolve_workspace_path "/ws" [] (.str "reports/apply_writes_report.md")
        = .ok "/ws/reports/apply_writes_report.md" ∧
    strGet? c5Fs "/ws/reports/apply_writes_report.md" = some "OLD" ∧
    strGet? c5Out.fs "/ws/reports/apply_writes_report.md" ≠ some "OLD" ∧
    c5Out.summary = some ⟨"inline", "reports/apply_writes_report.md", true, 0, 1, []⟩ := by
  refine ⟨rfl, rfl, ?_, rfl⟩
  decide

/-- C5 witness: the amended theorem applied to the counterexample
scenario extended with an unrelated file, which keeps its bytes, and
to its single overwrite change, which the summary counts as one
dry-run change and zero applied changes. -/
def c5WitFs : List (String × String) :=
  [("/ws/data.txt", "KEEP"), ("/ws/reports/apply_writes_report.md", "OLD")]

theorem C5_witness :
    strGet? (task_apply_writes [] "/ws" c5WitFs c5Plan c5Params [] "/ws" .null .null
      "M" "T" "2026-02-03 04:05:06" "0.00").fs "/ws/data.txt"
      = strGet? c5WitFs "/ws/data.txt" ∧
    ∃ s, (task_apply_writes [] "/ws" c5WitFs c5Plan c5Params [] "/ws" .null .null
      "M" "T" "2026-02-03 04:05:06" "0.00").summary = some s ∧
      s.applied = 0 ∧ s.dry_run_changes = 1 ∧ s.dry_run = true := by
  constructor
  · exact (C5_dry_run_effects).1 [] "/ws" c5WitFs c5Plan c5Params [] "/ws" .null .null
      "M" "T" "2026-02-03 04:05:06" "0.00" "/ws/data.txt" rfl (by decide)
  · exact (C5_dry_run_effects).2 [] "/ws" c5WitFs c5Plan c5Params [] "/ws" .null .null
      "M" "T" "2026-02-03 04:05:06" "0.00"
      [("action", .str "overwrite"), ("file", .str "reports/apply_writes_report.md"),
       ("content", .str "NEW")]
      "/ws/reports/apply_writes_report.md" "NEW" rfl rfl rfl rfl rfl rfl rfl rfl

end IAMcoder
